import Mathlib

/-!
# split_plus: session and token lifecycle

A shallow embedding of the authentication core of the repository
(`internal/service/jwt_service.go`, `internal/service/auth_service.go`,
`internal/http/middleware/auth.go`) together with the library calls these
files make (`golang-jwt/jwt/v5`, `crypto/hmac`, `encoding/json`,
`encoding/base64`, `unicode/utf8`, `time`), followed by the properties proved
about them.

Conventions
* instants and durations are integers counting nanoseconds, as in package
  `time`; the clock reading and the random draws of a call are explicit
  arguments;
* byte strings, Go strings among them, are lists of naturals below 256; text
  (well-formed UTF-8) is `String`;
* a Go `(value, error)` result whose value is only read when the error is nil
  is an `Except`; results whose components a caller reads are tuples.
-/

namespace SplitPlus

/-! ## Package time -/

/-- An instant: nanoseconds since the Unix epoch (`time.Time`). -/
abbrev Time := Int

/-- A span of time in nanoseconds (`time.Duration`). -/
abbrev Duration := Int

/-- The duration `time.Second`. -/
def Second : Duration := 1000000000

/-- The duration `time.Millisecond`. -/
def Millisecond : Duration := 1000000

/-- The duration `time.Minute`. -/
def Minute : Duration := 60 * Second

/-- The method `t.Add(d)`. -/
def Add (t : Time) (d : Duration) : Time := t + d

/-- The method `t.Truncate(d)`: `t` rounded down to a multiple of `d`; `t`
itself when `d` is not positive. -/
def Truncate (t : Time) (d : Duration) : Time :=
  if d ≤ 0 then t else t - t % d

/-- The number of binary digits of a natural number below `2 ^ 256`. -/
def bitLen (n : Nat) : Nat :=
  let p := [128, 64, 32, 16, 8, 4, 2, 1].foldl
    (fun (p : Nat × Nat) (k : Nat) => if 2 ^ k ≤ p.1 then (p.1 / 2 ^ k, p.2 + k) else p) (n, 0)
  if p.1 = 0 then 0 else p.2 + 1

/-- The rounding of `float64` arithmetic on a scaled value: `n` kept to 53
significant binary digits, to nearest, ties to even; `sticky` says that the
exact value lies strictly between `n` and `n + 1`. -/
def roundBits (n : Nat) (sticky : Bool) : Nat :=
  let len := bitLen n
  if len ≤ 53 then n
  else
    let s := len - 53
    let q := n / 2 ^ s
    let r := n % 2 ^ s
    let half := 2 ^ (s - 1)
    if r > half ∨ (r = half ∧ (sticky = true ∨ q % 2 = 1)) then (q + 1) * 2 ^ s else q * 2 ^ s

/-- The method `d.Seconds()` converted with `int64(...)`. The method computes
`float64(sec) + float64(nsec)/1e9` for `sec = d / Second` and
`nsec = d % Second`; here the quotient and the sum are carried as multiples of
`2 ^ -112`, each rounded as `float64` rounds, and the conversion drops the
fraction. -/
def Seconds (d : Duration) : Int :=
  let a := d.natAbs
  let sec := a / 1000000000
  let nsec := a % 1000000000
  let x := roundBits (nsec * 2 ^ 112 / 1000000000) (nsec * 2 ^ 112 % 1000000000 != 0)
  let y := roundBits (sec * 2 ^ 112 + x) false
  if d < 0 then -((y / 2 ^ 112 : Nat) : Int) else ((y / 2 ^ 112 : Nat) : Int)

/-! ## Errors -/

/-- The sentinel errors of `golang-jwt/jwt/v5` that the parser can attach to
its result; `ErrKeyfunc` stands for the error the key function returned, which
the parser wraps. -/
inductive JwtError
  | ErrTokenMalformed
  | ErrTokenUnverifiable
  | ErrTokenSignatureInvalid
  | ErrTokenInvalidClaims
  | ErrTokenExpired
  | ErrTokenNotValidYet
  | ErrSignatureInvalid
  | ErrInvalidKeyType
  | NoneSignatureTypeDisallowedError
  | ErrKeyfunc
  deriving DecidableEq, Repr

/-- Error values. The four named ones are the package-level variables of
`internal/service`; `jwt` is an error built by the token library, given by the
sentinels in its chain (what `errors.Is` can find); `other` is any other
error value, such as one coming from storage. -/
inductive Error
  | ErrInvalidToken
  | ErrExpiredToken
  | ErrInvalidRefreshToken
  | ErrSessionNotFound
  | jwt (chain : List JwtError)
  | other (msg : String)
  deriving DecidableEq, Repr

/-! ## Package unicode/utf8, and Go strings through encoding/json

A Go string is a sequence of bytes; text is a Go string that is well-formed
UTF-8. Byte strings are lists of bytes here and text is `String`. -/

/-- The constant `utf8.RuneError`, U+FFFD. -/
def RuneError : Nat := 0xFFFD

/-- The function `utf8.DecodeRune`: the rune at the head of a byte string and
its width in bytes; `(RuneError, 1)` when the head byte starts no well-formed
sequence, `(RuneError, 0)` for the empty string. -/
def DecodeRune : List Nat → Nat × Nat
  | [] => (RuneError, 0)
  | s0 :: rest =>
    if s0 < 0x80 then (s0, 1)
    else if s0 < 0xC2 ∨ 0xF4 < s0 then (RuneError, 1)
    else
      let sz := if s0 < 0xE0 then 2 else if s0 < 0xF0 then 3 else 4
      let lo := if s0 = 0xE0 then 0xA0 else if s0 = 0xF0 then 0x90 else 0x80
      let hi := if s0 = 0xED then 0x9F else if s0 = 0xF4 then 0x8F else 0xBF
      match rest with
      | [] => (RuneError, 1)
      | s1 :: rest1 =>
        if s1 < lo ∨ hi < s1 then (RuneError, 1)
        else if sz ≤ 2 then (s0 % 32 * 64 + s1 % 64, 2)
        else
          match rest1 with
          | [] => (RuneError, 1)
          | s2 :: rest2 =>
            if s2 < 0x80 ∨ 0xBF < s2 then (RuneError, 1)
            else if sz ≤ 3 then (s0 % 16 * 4096 + s1 % 64 * 64 + s2 % 64, 3)
            else
              match rest2 with
              | [] => (RuneError, 1)
              | s3 :: _ =>
                if s3 < 0x80 ∨ 0xBF < s3 then (RuneError, 1)
                else (s0 % 8 * 262144 + s1 % 64 * 4096 + s2 % 64 * 64 + s3 % 64, 4)

/-- The runes of a byte string, as `range` over a Go string yields them: one
rune for each well-formed sequence and `RuneError` for every other byte;
`skip` bytes at the head belong to the rune before. -/
def runes : Nat → List Nat → List Char
  | _, [] => []
  | skip + 1, _ :: rest => runes skip rest
  | 0, b :: rest =>
    Char.ofNat (DecodeRune (b :: rest)).1 :: runes ((DecodeRune (b :: rest)).2 - 1) rest

/-- What a Go string reads as after `json.Marshal` and `json.Unmarshal`: the
encoder writes every byte that starts no well-formed UTF-8 sequence as U+FFFD
and every rune so that the decoder reads it back. -/
def jsonText (b : List Nat) : String := String.mk (runes 0 b)

/-- The function `utf8.AppendRune` on a valid rune: its one to four bytes. -/
def EncodeRune (c : Char) : List Nat :=
  let r := c.toNat
  if r < 0x80 then [r]
  else if r < 0x800 then [0xC0 + r / 64, 0x80 + r % 64]
  else if r < 0x10000 then [0xE0 + r / 4096, 0x80 + r / 64 % 64, 0x80 + r % 64]
  else [0xF0 + r / 262144, 0x80 + r / 4096 % 64, 0x80 + r / 64 % 64, 0x80 + r % 64]

/-- The bytes of the Go string that holds a text. -/
def utf8Bytes (s : String) : List Nat := s.data.flatMap EncodeRune

/-! ## Claims, and package crypto/hmac over the hash functions of the token library -/

/-- The hash functions the HMAC signing methods are registered with. -/
inductive Hash
  | SHA256
  | SHA384
  | SHA512
  deriving DecidableEq, Repr

/-- The method `BlockSize()` of each hash, in bytes. -/
def Hash.BlockSize : Hash → Nat
  | .SHA256 => 64
  | .SHA384 => 128
  | .SHA512 => 128

/-- The struct `jwt.RegisteredClaims`, with the fields this service sets. -/
structure RegisteredClaims where
  ID : String
  IssuedAt : Option Time
  ExpiresAt : Option Time
  NotBefore : Option Time
  deriving DecidableEq, Repr

/-- The struct `AccessTokenClaims` of `jwt_service.go`. -/
structure AccessTokenClaims extends RegisteredClaims where
  UserID : String
  Email : String
  deriving DecidableEq, Repr

/-- The value of `AccessTokenClaims` as the signer holds it before encoding:
its strings are Go strings, which may hold any bytes. What a parser returns is
`AccessTokenClaims`, whose strings are text, since the JSON decoder returns
well-formed UTF-8 only. -/
structure WrittenClaims where
  UserID : List Nat
  Email : List Nat
  ID : List Nat
  IssuedAt : Option Time
  ExpiresAt : Option Time
  NotBefore : Option Time
  deriving DecidableEq, Repr

/-- The claims a parser reads from the JSON that `json.Marshal` writes for a
value: every string as `jsonText` gives it, the dates as written. -/
def WrittenClaims.decoded (c : WrittenClaims) : AccessTokenClaims :=
  { UserID := jsonText c.UserID
    Email := jsonText c.Email
    ID := jsonText c.ID
    IssuedAt := c.IssuedAt
    ExpiresAt := c.ExpiresAt
    NotBefore := c.NotBefore }

/-- What the embedding takes from outside the repository without looking
inside: the digest of each hash function, and the text
`base64url(header) . base64url(claims)` that `Token.SigningString` builds for
an algorithm name and a set of claims. -/
structure Primitives where
  Sum : Hash → List Nat → List Nat
  SigningString : String → WrittenClaims → List Nat

/-- The key block of `hmac.New`: `blocksize` bytes, the key copied to the
front of a zeroed block, each byte xor-ed with `pad`. -/
def keyBlock (pad : Nat) (key : List Nat) (blocksize : Nat) : List Nat :=
  (List.range blocksize).map (fun i => Nat.xor (key.getD i 0) pad)

/-- The tag `hmac.New(h, key)` followed by `Write(msg)` and `Sum(nil)`: a key
longer than the block size is hashed first, then
`H(opad ‖ H(ipad ‖ msg))`. -/
def hmacSum (P : Primitives) (h : Hash) (key msg : List Nat) : List Nat :=
  let key := if key.length > h.BlockSize then P.Sum h key else key
  let ipad := keyBlock 0x36 key h.BlockSize
  let opad := keyBlock 0x5c key h.BlockSize
  P.Sum h (opad ++ P.Sum h (ipad ++ msg))

/-- The key block `hmac.New(h, key)` works from, before either pad is applied:
the key, replaced by its digest when it is longer than the block size, in a
zeroed block of `h.BlockSize` bytes. -/
def hmacKey (P : Primitives) (h : Hash) (key : List Nat) : List Nat :=
  keyBlock 0 (if key.length > h.BlockSize then P.Sum h key else key) h.BlockSize

/-! ## Package golang-jwt/jwt/v5 -/

/-- The registered signing methods, by the Go type implementing them. -/
inductive SigningMethod
  | HMAC (h : Hash)
  | RSA (h : Hash)
  | RSAPSS (h : Hash)
  | ECDSA (h : Hash)
  | Ed25519
  | None
  deriving DecidableEq, Repr

/-- The method `Alg()`. -/
def SigningMethod.Alg : SigningMethod → String
  | .HMAC .SHA256 => "HS256"
  | .HMAC .SHA384 => "HS384"
  | .HMAC .SHA512 => "HS512"
  | .RSA .SHA256 => "RS256"
  | .RSA .SHA384 => "RS384"
  | .RSA .SHA512 => "RS512"
  | .RSAPSS .SHA256 => "PS256"
  | .RSAPSS .SHA384 => "PS384"
  | .RSAPSS .SHA512 => "PS512"
  | .ECDSA .SHA256 => "ES256"
  | .ECDSA .SHA384 => "ES384"
  | .ECDSA .SHA512 => "ES512"
  | .Ed25519 => "EdDSA"
  | .None => "none"

/-- The methods the library registers with `RegisterSigningMethod`. -/
def signingMethods : List SigningMethod :=
  [.HMAC .SHA256, .HMAC .SHA384, .HMAC .SHA512, .RSA .SHA256, .RSA .SHA384, .RSA .SHA512,
   .RSAPSS .SHA256, .RSAPSS .SHA384, .RSAPSS .SHA512, .ECDSA .SHA256, .ECDSA .SHA384,
   .ECDSA .SHA512, .Ed25519, .None]

/-- The function `jwt.GetSigningMethod`: the method registered under a name. -/
def GetSigningMethod (alg : String) : Option SigningMethod :=
  signingMethods.find? (fun m => m.Alg == alg)

/-- The method `Sign(signingString, key)` for a key of type `[]byte`: the HMAC
methods return the tag, every other method refuses a byte-slice key. -/
def SigningMethod.Sign (P : Primitives) (m : SigningMethod) (signingString key : List Nat) :
    Except JwtError (List Nat) :=
  match m with
  | .HMAC h => .ok (hmacSum P h key signingString)
  | .None => .error .NoneSignatureTypeDisallowedError
  | _ => .error .ErrInvalidKeyType

/-- The method `Verify(signingString, sig, key)` for a key of type `[]byte`:
`none` when the signature is accepted. The HMAC methods compare the tag with
`hmac.Equal`. -/
def SigningMethod.Verify (P : Primitives) (m : SigningMethod) (signingString sig key : List Nat) :
    Option JwtError :=
  match m with
  | .HMAC h => if sig = hmacSum P h key signingString then none else some .ErrSignatureInvalid
  | .None => some .NoneSignatureTypeDisallowedError
  | _ => some .ErrInvalidKeyType

/-- The constructor `jwt.NewNumericDate`: the instant truncated to
`jwt.TimePrecision`, which is one second. -/
def NewNumericDate (t : Time) : Time := Truncate t Second

/-- A token string as the parser reads it: either text that is not three
segments of which the first two are base64url of a JSON header and of JSON
claims (`malformed`), or the decoded content of such text: the signed text (the
first two segments), the header's `alg`, the claims and the signature bytes
(`compact`), or no signature bytes when the third segment is not base64url
(`badSignature`). -/
inductive TokenString
  | malformed
  | compact (signingString : List Nat) (alg : String) (claims : AccessTokenClaims)
      (signature : List Nat)
  | badSignature (signingString : List Nat) (alg : String) (claims : AccessTokenClaims)
  deriving DecidableEq, Repr

/-- The struct `jwt.Token` after parsing. -/
structure Token where
  Method : SigningMethod
  Claims : AccessTokenClaims
  Signature : List Nat
  Valid : Bool
  deriving DecidableEq, Repr

/-- The method `Token.SigningString` for a method and claims. -/
def SigningString (P : Primitives) (m : SigningMethod) (c : WrittenClaims) : List Nat :=
  P.SigningString m.Alg c

/-- The call `jwt.NewWithClaims(method, claims).SignedString(key)`: the token
holds the claims as a parser reads them from the JSON written; the dates are
whole seconds and read back as written. -/
def SignedString (P : Primitives) (m : SigningMethod) (c : WrittenClaims) (key : List Nat) :
    Except JwtError TokenString :=
  let sstr := SigningString P m c
  match m.Sign P sstr key with
  | .error err => .error err
  | .ok sig => .ok (.compact sstr m.Alg c.decoded sig)

/-- The method `Validator.Validate` with the default options (no leeway, no
expected issuer, subject or audience, issued-at not checked): the errors it
joins, in order. -/
def Validate (now : Time) (c : RegisteredClaims) : List JwtError :=
  (match c.ExpiresAt with
    | none => []
    | some exp => if now < exp then [] else [.ErrTokenExpired]) ++
  (match c.NotBefore with
    | none => []
    | some nbf => if now < nbf then [.ErrTokenNotValidYet] else [])

/-- The method `Parser.ParseUnverified` of a default parser: decode the header
and the claims and look the method up; the signature segment is not read. -/
def ParseUnverified (tokenString : TokenString) : Except (List JwtError) Token :=
  match tokenString with
  | .malformed => .error [.ErrTokenMalformed]
  | .compact _ alg claims _ =>
    match GetSigningMethod alg with
    | none => .error [.ErrTokenUnverifiable]
    | some method => .ok { Method := method, Claims := claims, Signature := [], Valid := false }
  | .badSignature _ alg claims =>
    match GetSigningMethod alg with
    | none => .error [.ErrTokenUnverifiable]
    | some method => .ok { Method := method, Claims := claims, Signature := [], Valid := false }

/-- The method `Parser.ParseWithClaims` of a default parser at clock reading
`now`: decode, look the method up, decode the signature, ask `keyFunc` for the
key, verify the signature, then validate the claims. The error is the chain of
sentinels. -/
def ParseWithClaims (P : Primitives) (now : Time) (tokenString : TokenString)
    (keyFunc : Token → Except Error (List Nat)) : Except (List JwtError) Token :=
  match tokenString with
  | .malformed => .error [.ErrTokenMalformed]
  | .badSignature _ alg _ =>
    match GetSigningMethod alg with
    | none => .error [.ErrTokenUnverifiable]
    | some _ => .error [.ErrTokenMalformed]
  | .compact signingString alg claims signature =>
    match GetSigningMethod alg with
    | none => .error [.ErrTokenUnverifiable]
    | some method =>
      let token : Token := { Method := method, Claims := claims, Signature := signature,
                             Valid := false }
      match keyFunc token with
      | .error _ => .error [.ErrTokenUnverifiable, .ErrKeyfunc]
      | .ok key =>
        match method.Verify P signingString signature key with
        | some err => .error [.ErrTokenSignatureInvalid, err]
        | none =>
          match Validate now claims.toRegisteredClaims with
          | [] => .ok { token with Valid := true }
          | errs => .error (.ErrTokenInvalidClaims :: errs)

/-! ## Package encoding/base64, the encoding `base64.URLEncoding` -/

/-- The alphabet of `base64.URLEncoding`. -/
def encodeURL : List Char :=
  "ABCDEFGHIJKLMNOPQRSTUVWXYZabcdefghijklmnopqrstuvwxyz0123456789-_".toList

/-- The character for a six-bit value (`enc.encode[v]`). -/
def encodeChar (v : Nat) : Char := encodeURL.getD v 'A'

/-- The six-bit value of a character (`enc.decodeMap[c]`), `none` for a
character outside the alphabet. -/
def decodeChar (c : Char) : Option Nat :=
  if encodeURL.indexOf c < 64 then some (encodeURL.indexOf c) else none

/-- The method `Encode`: four characters for every three bytes, and a last
group padded with `=`. -/
def Encode : List Nat → List Char
  | b0 :: b1 :: b2 :: rest =>
    let val := b0 * 65536 + b1 * 256 + b2
    encodeChar (val / 262144 % 64) :: encodeChar (val / 4096 % 64) ::
      encodeChar (val / 64 % 64) :: encodeChar (val % 64) :: Encode rest
  | [b0, b1] =>
    let val := b0 * 65536 + b1 * 256
    [encodeChar (val / 262144 % 64), encodeChar (val / 4096 % 64),
      encodeChar (val / 64 % 64), '=']
  | [b0] =>
    let val := b0 * 65536
    [encodeChar (val / 262144 % 64), encodeChar (val / 4096 % 64), '=', '=']
  | [] => []

/-- The method `EncodeToString`. -/
def EncodeToString (b : List Nat) : String := String.mk (Encode b)

/-- The method `Decode` on text without line breaks: three bytes for every
four characters of the alphabet; a last group may end in one or two `=`;
anything else is a `CorruptInputError`. -/
def Decode : List Char → Except Error (List Nat)
  | [] => .ok []
  | c0 :: c1 :: c2 :: c3 :: rest =>
    if rest = [] ∧ c3 = '=' then
      if c2 = '=' then
        match decodeChar c0, decodeChar c1 with
        | some d0, some d1 => .ok [(d0 * 262144 + d1 * 4096) / 65536 % 256]
        | _, _ => .error (.other "illegal base64 data")
      else
        match decodeChar c0, decodeChar c1, decodeChar c2 with
        | some d0, some d1, some d2 =>
          let val := d0 * 262144 + d1 * 4096 + d2 * 64
          .ok [val / 65536 % 256, val / 256 % 256]
        | _, _, _ => .error (.other "illegal base64 data")
    else
      match decodeChar c0, decodeChar c1, decodeChar c2, decodeChar c3 with
      | some d0, some d1, some d2, some d3 =>
        let val := d0 * 262144 + d1 * 4096 + d2 * 64 + d3
        match Decode rest with
        | .error err => .error err
        | .ok bytes => .ok (val / 65536 % 256 :: val / 256 % 256 :: val % 256 :: bytes)
      | _, _, _, _ => .error (.other "illegal base64 data")
  | _ => .error (.other "illegal base64 data")

/-- The method `DecodeString`: line breaks are skipped. -/
def DecodeString (s : String) : Except Error (List Nat) :=
  Decode (s.data.filter (fun c => c != '\r' && c != '\n'))

/-! ## internal/service/jwt_service.go -/

/-- The struct `jwtService`. -/
structure jwtService where
  secret : List Nat
  accessTokenExpiry : Duration
  refreshTokenExpiry : Duration
  deriving DecidableEq, Repr

/-- The constructor `NewJWTService`. -/
def NewJWTService (secret : List Nat) (accessTokenExpiry refreshTokenExpiry : Duration) :
    jwtService :=
  { secret := secret, accessTokenExpiry := accessTokenExpiry,
    refreshTokenExpiry := refreshTokenExpiry }

/-- The method `GenerateAccessToken`; `jti` is the string of the fresh UUID,
`now` the clock reading, `userID` and `email` the bytes of the two Go strings.
Returns the token and the jti. -/
def GenerateAccessToken (P : Primitives) (s : jwtService) (jti : String) (now : Time)
    (userID email : List Nat) : Except Error (TokenString × String) :=
  let claims : WrittenClaims :=
    { UserID := userID
      Email := email
      ID := utf8Bytes jti
      IssuedAt := some (NewNumericDate now)
      ExpiresAt := some (NewNumericDate (Add now s.accessTokenExpiry))
      NotBefore := some (NewNumericDate now) }
  match SignedString P (.HMAC .SHA256) claims s.secret with
  | .error err => .error (.jwt [err])
  | .ok tokenString => .ok (tokenString, jti)

/-- The key function `ValidateAccessToken` hands to the parser. -/
def keyFunc (s : jwtService) (token : Token) : Except Error (List Nat) :=
  match token.Method with
  | .HMAC _ => .ok s.secret
  | _ => .error .ErrInvalidToken

/-- The method `ValidateAccessToken` at clock reading `now`. -/
def ValidateAccessToken (P : Primitives) (s : jwtService) (now : Time)
    (tokenString : TokenString) : Except Error AccessTokenClaims :=
  match ParseWithClaims P now tokenString (keyFunc s) with
  | .error err =>
    if JwtError.ErrTokenExpired ∈ err then .error .ErrExpiredToken
    else .error .ErrInvalidToken
  | .ok token =>
    if !token.Valid then .error .ErrInvalidToken
    else .ok token.Claims

/-- The method `ParseAccessToken`: the claims of any token the parser can
read, with no check of signature or dates. -/
def ParseAccessToken (tokenString : TokenString) : Except Error AccessTokenClaims :=
  match ParseUnverified tokenString with
  | .error _ => .error .ErrInvalidToken
  | .ok token => .ok token.Claims

/-- The method `GenerateRefreshToken`; `read n` is what `rand.Read` does to a
buffer of `n` bytes: it fills it or fails. -/
def GenerateRefreshToken (_s : jwtService) (read : Nat → Except Error (List Nat)) :
    Except Error String :=
  match read 32 with
  | .error err => .error err
  | .ok b => .ok (EncodeToString b)

/-! ## Database types (pgtype, and the generated package internal/db/sqlc) -/

/-- The struct `pgtype.UUID`: sixteen bytes and a validity flag. -/
structure UUID where
  Bytes : List Nat
  Valid : Bool
  size : Bytes.length = 16
  deriving DecidableEq

/-- The struct `pgtype.Text`. -/
structure Text where
  String : String
  Valid : Bool
  deriving DecidableEq, Repr

/-- The struct `pgtype.Timestamptz`. -/
structure Timestamptz where
  Time : Time
  Valid : Bool
  deriving DecidableEq, Repr

/-- The user record `AuthenticateUser` returns, with the two fields `Login`
reads. -/
structure User where
  ID : UUID
  Email : String
  deriving DecidableEq

/-- Modelled from the spec: the row type `sqlc.Session`, whose declaration is
in the generated package; the fields are those of the Session entity of the
data model. -/
structure Session where
  ID : UUID
  UserID : UUID
  RefreshTokenHash : String
  UserAgent : Text
  IpAddress : Text
  CreatedAt : Timestamptz
  LastUsedAt : Timestamptz
  ExpiresAt : Timestamptz
  deriving DecidableEq

/-- The struct `sqlc.CreateSessionParams`, with the fields `Login` fills. -/
structure CreateSessionParams where
  UserID : UUID
  RefreshTokenHash : String
  UserAgent : Text
  IpAddress : Text
  ExpiresAt : Timestamptz
  deriving DecidableEq

/-- The struct `sqlc.BlacklistTokenParams`, with the fields `Logout` and
`RevokeToken` fill. -/
structure BlacklistTokenParams where
  TokenJti : String
  UserID : UUID
  ExpiresAt : Timestamptz
  Reason : Text
  deriving DecidableEq

/-! ## The collaborator interfaces

A method of a Go interface may read and change anything; here it is a function
of its arguments and a world `σ`, returning its result and the next world. -/

/-- The part of the interface `UserService` that `Login` calls. -/
structure UserService (σ : Type) where
  AuthenticateUser : String → String → σ → Except Error User × σ

/-- The interface `SessionRepository` of `session_repository.go`. -/
structure SessionRepository (σ : Type) where
  CreateSession : CreateSessionParams → σ → Except Error Session × σ
  GetSessionByRefreshTokenHash : String → σ → Except Error Session × σ
  UpdateSessionLastUsed : UUID → σ → Option Error × σ
  DeleteSession : String → σ → Option Error × σ
  DeleteAllUserSessions : UUID → σ → Option Error × σ
  DeleteExpiredSessions : σ → Option Error × σ
  GetActiveSessionsByUserID : UUID → σ → Except Error (List Session) × σ
  BlacklistToken : BlacklistTokenParams → σ → Option Error × σ
  IsTokenBlacklisted : String → σ → Except Error Bool × σ
  DeleteExpiredBlacklistedTokens : σ → Option Error × σ

/-- The interface `JWTService` of `jwt_service.go`, the token carried as the
text the callers pass around. -/
structure JWTService (σ : Type) where
  GenerateAccessToken : String → String → σ → Except Error (String × String) × σ
  GenerateRefreshToken : σ → Except Error String × σ
  ValidateAccessToken : String → σ → Except Error AccessTokenClaims × σ
  ParseAccessToken : String → σ → Except Error AccessTokenClaims × σ

/-! ## Package google/uuid -/

/-- The function `uuid.FromBytes`: accepts exactly sixteen bytes. -/
def FromBytes (b : List Nat) : Except Error (List Nat) :=
  if b.length = 16 then .ok b else .error (.other "invalid UUID")

/-- Two lower-case hexadecimal digits for each byte. -/
def encodeHex (b : List Nat) : List Char :=
  b.flatMap (fun x => [Nat.digitChar (x / 16 % 16), Nat.digitChar (x % 16)])

/-- The method `UUID.String`: the form `xxxxxxxx-xxxx-xxxx-xxxx-xxxxxxxxxxxx`. -/
def UUIDString (b : List Nat) : String :=
  String.mk (encodeHex (b.take 4) ++ '-' :: encodeHex ((b.drop 4).take 2) ++
    '-' :: encodeHex ((b.drop 6).take 2) ++ '-' :: encodeHex ((b.drop 8).take 2) ++
    '-' :: encodeHex (b.drop 10))

/-! ## internal/service/auth_service.go -/

/-- The struct `authService`. -/
structure authService (σ : Type) where
  userService : UserService σ
  sessionRepository : SessionRepository σ
  jwtService : JWTService σ
  accessTokenExpiry : Duration
  refreshTokenExpiry : Duration

/-- The constructor `NewAuthService`. -/
def NewAuthService {σ : Type} (userService : UserService σ)
    (sessionRepository : SessionRepository σ) (jwtService : JWTService σ)
    (accessTokenExpiry refreshTokenExpiry : Duration) : authService σ :=
  { userService := userService, sessionRepository := sessionRepository,
    jwtService := jwtService, accessTokenExpiry := accessTokenExpiry,
    refreshTokenExpiry := refreshTokenExpiry }

/-- The method `Login`; `now` is the clock reading taken for the session's
expiry. Returns `(accessToken, refreshToken, expiresIn, err)`. -/
def Login {σ : Type} (s : authService σ) (now : Time)
    (email password userAgent ipAddress : String) (w : σ) :
    (String × String × Int × Option Error) × σ :=
  match s.userService.AuthenticateUser email password w with
  | (.error err, w) => (("", "", 0, some err), w)
  | (.ok user, w) =>
    match FromBytes user.ID.Bytes with
    | .error err => (("", "", 0, some err), w)
    | .ok userUUID =>
      match s.jwtService.GenerateAccessToken (UUIDString userUUID) user.Email w with
      | (.error err, w) => (("", "", 0, some err), w)
      | (.ok (accessToken, _), w) =>
        match s.jwtService.GenerateRefreshToken w with
        | (.error err, w) => (("", "", 0, some err), w)
        | (.ok refreshToken, w) =>
          let expiresAt : Timestamptz := { Time := Add now s.refreshTokenExpiry, Valid := true }
          match s.sessionRepository.CreateSession
              { UserID := user.ID
                RefreshTokenHash := refreshToken
                UserAgent := { String := userAgent, Valid := userAgent != "" }
                IpAddress := { String := ipAddress, Valid := ipAddress != "" }
                ExpiresAt := expiresAt } w with
          | (.error err, w) => (("", "", 0, some err), w)
          | (.ok _, w) =>
            let expiresIn := Seconds s.accessTokenExpiry
            ((accessToken, refreshToken, expiresIn, none), w)

/-- The method `RefreshToken`. Returns `(accessToken, expiresIn, err)`. -/
def RefreshToken {σ : Type} (s : authService σ) (refreshToken _userAgent _ipAddress : String)
    (w : σ) : (String × Int × Option Error) × σ :=
  match s.sessionRepository.GetSessionByRefreshTokenHash refreshToken w with
  | (.error _, w) => (("", 0, some .ErrSessionNotFound), w)
  | (.ok session, w) =>
    match s.sessionRepository.UpdateSessionLastUsed session.ID w with
    | (_, w) =>
      match FromBytes session.UserID.Bytes with
      | .error err => (("", 0, some err), w)
      | .ok sessionUserUUID =>
        match s.jwtService.GenerateAccessToken (UUIDString sessionUserUUID) "" w with
        | (.error err, w) => (("", 0, some err), w)
        | (.ok (accessToken, _), w) =>
          let expiresIn := Seconds s.accessTokenExpiry
          ((accessToken, expiresIn, none), w)

/-- The method `Logout`; `now` is the clock reading taken for the blacklist
entry's expiry. -/
def Logout {σ : Type} (s : authService σ) (now : Time) (refreshToken accessTokenJTI : String)
    (userID : UUID) (w : σ) : Option Error × σ :=
  match s.sessionRepository.DeleteSession refreshToken w with
  | (some err, w) => (some err, w)
  | (none, w) =>
    if accessTokenJTI != "" then
      let expiresAt : Timestamptz := { Time := Add now s.accessTokenExpiry, Valid := true }
      match s.sessionRepository.BlacklistToken
          { TokenJti := accessTokenJTI
            UserID := userID
            ExpiresAt := expiresAt
            Reason := { String := "user logout", Valid := true } } w with
      | (some err, w) => (some err, w)
      | (none, w) => (none, w)
    else (none, w)

/-- The method `LogoutAllSessions`. -/
def LogoutAllSessions {σ : Type} (s : authService σ) (userID : UUID) (w : σ) :
    Option Error × σ :=
  s.sessionRepository.DeleteAllUserSessions userID w

/-- The method `RevokeToken`; `now` is the clock reading. -/
def RevokeToken {σ : Type} (s : authService σ) (now : Time) (tokenJTI : String) (userID : UUID)
    (reason : String) (w : σ) : Option Error × σ :=
  let expiresAt : Timestamptz := { Time := Add now s.accessTokenExpiry, Valid := true }
  s.sessionRepository.BlacklistToken
    { TokenJti := tokenJTI
      UserID := userID
      ExpiresAt := expiresAt
      Reason := { String := reason, Valid := reason != "" } } w

/-- The method `CleanupExpiredSessions`. -/
def CleanupExpiredSessions {σ : Type} (s : authService σ) (w : σ) : Option Error × σ :=
  match s.sessionRepository.DeleteExpiredSessions w with
  | (some err, w) => (some err, w)
  | (none, w) => s.sessionRepository.DeleteExpiredBlacklistedTokens w

/-! ## internal/http/middleware/auth.go -/

/-- The two values the middleware keeps in a request context, under
`userIDKey` and `jtiKey`. -/
structure Context where
  userID : Option UUID
  jti : Option String
  deriving DecidableEq

/-- The functions `SetUserID` and `SetJTI`. -/
def SetUserID (ctx : Context) (userID : UUID) : Context := { ctx with userID := some userID }

/-- The function `SetJTI`. -/
def SetJTI (ctx : Context) (jti : String) : Context := { ctx with jti := some jti }

/-- A request as the middleware reads it: what `r.Header.Get("Authorization")`
returns (empty when the header is absent) and the request context. -/
structure Request where
  Authorization : String
  ctx : Context
  deriving DecidableEq

/-- What a middleware does to the outside: write an error response with
`response.SendError(w, status, message)` or call `next.ServeHTTP(w, r)`. -/
inductive Event
  | SendError (status : Nat) (message : String)
  | ServeHTTP (r : Request)
  deriving DecidableEq

/-- The constant `http.StatusUnauthorized`. -/
def StatusUnauthorized : Nat := 401

/-- The constant `http.StatusInternalServerError`. -/
def StatusInternalServerError : Nat := 500

/-- Cuts a text at its first space: the text before it and the text after
it, `none` when there is no space. -/
def cutSpace : List Char → Option (List Char × List Char)
  | [] => none
  | c :: cs =>
    if c = ' ' then some ([], cs)
    else match cutSpace cs with
      | none => none
      | some (a, b) => some (c :: a, b)

/-- The call `strings.SplitN(s, " ", 2)`. -/
def SplitN2 (s : String) : List String :=
  match cutSpace s.data with
  | none => [s]
  | some (a, b) => [String.mk a, String.mk b]

/-- The middleware `RequireAuth`, applied to a request in world `w`: the
events it causes, in order. `Scan` is `pgtype.UUID.Scan` on a string. -/
def RequireAuth {σ : Type} (Scan : String → Except Error UUID) (jwtService : JWTService σ)
    (sessionRepo : SessionRepository σ) (r : Request) (w : σ) : List Event × σ :=
  let authHeader := r.Authorization
  if authHeader = "" then
    ([.SendError StatusUnauthorized "missing authorization header"], w)
  else
    let parts := SplitN2 authHeader
    if parts.length ≠ 2 ∨ parts.getD 0 "" ≠ "Bearer" then
      ([.SendError StatusUnauthorized "invalid authorization header format"], w)
    else
      let tokenString := parts.getD 1 ""
      match jwtService.ValidateAccessToken tokenString w with
      | (.error err, w) =>
        let message :=
          match err with
          | .ErrExpiredToken => "token has expired"
          | .ErrInvalidToken => "invalid token"
          | _ => "unauthorized"
        ([.SendError StatusUnauthorized message], w)
      | (.ok claims, w) =>
        match sessionRepo.IsTokenBlacklisted claims.ID w with
        | (.error _, w) => ([.SendError StatusInternalServerError "authentication error"], w)
        | (.ok isBlacklisted, w) =>
          if isBlacklisted then
            ([.SendError StatusUnauthorized "token has been revoked"], w)
          else
            match Scan claims.UserID with
            | .error _ => ([.SendError StatusUnauthorized "invalid user id in token"], w)
            | .ok userID =>
              let ctx := SetUserID r.ctx userID
              let ctx := SetJTI ctx claims.ID
              ([.ServeHTTP { r with ctx := ctx }], w)

/-- The middleware `ParseAuth`, applied to a request in world `w`. -/
def ParseAuth {σ : Type} (Scan : String → Except Error UUID) (jwtService : JWTService σ)
    (sessionRepo : SessionRepository σ) (r : Request) (w : σ) : List Event × σ :=
  let authHeader := r.Authorization
  if authHeader = "" then ([.ServeHTTP r], w)
  else
    let parts := SplitN2 authHeader
    if parts.length ≠ 2 ∨ parts.getD 0 "" ≠ "Bearer" then ([.ServeHTTP r], w)
    else
      let tokenString := parts.getD 1 ""
      match jwtService.ValidateAccessToken tokenString w with
      | (.error _, w) => ([.ServeHTTP r], w)
      | (.ok claims, w) =>
        match sessionRepo.IsTokenBlacklisted claims.ID w with
        | (.error _, w) => ([.ServeHTTP r], w)
        | (.ok isBlacklisted, w) =>
          if isBlacklisted then ([.ServeHTTP r], w)
          else
            match Scan claims.UserID with
            | .error _ => ([.ServeHTTP r], w)
            | .ok userID =>
              let ctx := SetUserID r.ctx userID
              let ctx := SetJTI ctx claims.ID
              ([.ServeHTTP { r with ctx := ctx }], w)

/-- The downstream handler was invoked: the requests handed to `next`. -/
def served : List Event → List Request
  | [] => []
  | .ServeHTTP r :: es => r :: served es
  | .SendError _ _ :: es => served es

/-- The error responses written: status and message. -/
def errorsSent : List Event → List (Nat × String)
  | [] => []
  | .ServeHTTP _ :: es => errorsSent es
  | .SendError status message :: es => (status, message) :: errorsSent es

/-! ## The session store

The queries behind `SessionRepository` are generated code outside the
repository's sources; the store below follows section 4.2 of the
specification. -/

/-- Modelled from the spec: the Blacklist Entry of the data model, the row
behind `BlacklistToken`. -/
structure BlacklistEntry where
  TokenJti : String
  UserID : UUID
  Reason : Text
  ExpiresAt : Timestamptz
  deriving DecidableEq

/-- Modelled from the spec: the persistent state of the Session Store, the
sessions keyed by refresh secret and the blacklist keyed by jti. -/
structure Store where
  sessions : List Session
  blacklist : List BlacklistEntry
  deriving DecidableEq

/-- The ten operations of the Session Store. -/
inductive StoreOp
  | CreateSession
  | GetSessionByRefreshTokenHash
  | UpdateSessionLastUsed
  | DeleteSession
  | DeleteAllUserSessions
  | DeleteExpiredSessions
  | GetActiveSessionsByUserID
  | BlacklistToken
  | IsTokenBlacklisted
  | DeleteExpiredBlacklistedTokens
  deriving DecidableEq, Repr

/-- Modelled from the spec: one statement against the record store that
changes it. When the record store fails the statement (an internal or storage
error of section 7) nothing changes. -/
def execute (fault : Option Error) (st : Store) (f : Store → Store) : Option Error × Store :=
  match fault with
  | some err => (some err, st)
  | none => (none, f st)

/-- Modelled from the spec: the queries of the generated package
`internal/db/sqlc` behind `SessionRepository`, as the operations of section
4.2 on a `Store`: `create_session`, `find_session_by_refresh_secret` (with
not-found signalling), `touch_session`, `delete_session` (absence is no
error), `delete_all_sessions`, `delete_expired_sessions` (rows with
`expires_at < now`), `list_active_sessions`, `blacklist_token`,
`is_blacklisted`, `delete_expired_blacklist_entries`. `now` is the store's
clock, `newID` the identifier a new session gets, and `fault` the error, if
any, with which the record store fails each operation. -/
def storeRepository (now : Time) (newID : UUID) (fault : StoreOp → Option Error) :
    SessionRepository Store :=
  { CreateSession := fun p st =>
      let session : Session :=
        { ID := newID, UserID := p.UserID, RefreshTokenHash := p.RefreshTokenHash,
          UserAgent := p.UserAgent, IpAddress := p.IpAddress,
          CreatedAt := { Time := now, Valid := true },
          LastUsedAt := { Time := now, Valid := true },
          ExpiresAt := p.ExpiresAt }
      match fault .CreateSession with
      | some err => (.error err, st)
      | none =>
        (.ok session,
          { st with sessions :=
              session :: st.sessions.filter (fun x => x.RefreshTokenHash != p.RefreshTokenHash) })
    GetSessionByRefreshTokenHash := fun secret st =>
      match fault .GetSessionByRefreshTokenHash with
      | some err => (.error err, st)
      | none =>
        match st.sessions.find? (fun x => x.RefreshTokenHash == secret) with
        | none => (.error (.other "no rows in result set"), st)
        | some session => (.ok session, st)
    UpdateSessionLastUsed := fun sessionID st =>
      execute (fault .UpdateSessionLastUsed) st (fun st =>
        { st with sessions := st.sessions.map (fun x =>
            if x.ID = sessionID then { x with LastUsedAt := { Time := now, Valid := true } }
            else x) })
    DeleteSession := fun secret st =>
      execute (fault .DeleteSession) st (fun st =>
        { st with sessions := st.sessions.filter (fun x => x.RefreshTokenHash != secret) })
    DeleteAllUserSessions := fun userID st =>
      execute (fault .DeleteAllUserSessions) st (fun st =>
        { st with sessions := st.sessions.filter (fun x => x.UserID != userID) })
    DeleteExpiredSessions := fun st =>
      execute (fault .DeleteExpiredSessions) st (fun st =>
        { st with sessions := st.sessions.filter (fun x => !decide (x.ExpiresAt.Time < now)) })
    GetActiveSessionsByUserID := fun userID st =>
      match fault .GetActiveSessionsByUserID with
      | some err => (.error err, st)
      | none => (.ok (st.sessions.filter (fun x => x.UserID == userID)), st)
    BlacklistToken := fun p st =>
      execute (fault .BlacklistToken) st (fun st =>
        { st with blacklist :=
            { TokenJti := p.TokenJti, UserID := p.UserID, Reason := p.Reason,
              ExpiresAt := p.ExpiresAt } ::
            st.blacklist.filter (fun x => x.TokenJti != p.TokenJti) })
    IsTokenBlacklisted := fun jti st =>
      match fault .IsTokenBlacklisted with
      | some err => (.error err, st)
      | none => (.ok (st.blacklist.any (fun x => x.TokenJti == jti)), st)
    DeleteExpiredBlacklistedTokens := fun st =>
      execute (fault .DeleteExpiredBlacklistedTokens) st (fun st =>
        { st with blacklist :=
            st.blacklist.filter (fun x => !decide (x.ExpiresAt.Time < now)) }) }

/-- The record store answering every operation: no fault. -/
def noFault : StoreOp → Option Error := fun _ => none

/-! ## Definitions used to state and to evaluate the properties -/

/-- The claims value `GenerateAccessToken` builds at clock reading `now` with
the identifier `jti`. -/
def writtenClaims (s : jwtService) (jti : String) (now : Time) (userID email : List Nat) :
    WrittenClaims :=
  { UserID := userID
    Email := email
    ID := utf8Bytes jti
    IssuedAt := some (NewNumericDate now)
    ExpiresAt := some (NewNumericDate (Add now s.accessTokenExpiry))
    NotBefore := some (NewNumericDate now) }

/-- The claims a parser reads from the token `GenerateAccessToken` issues at
clock reading `now` with the identifier `jti`. -/
def issuedClaims (s : jwtService) (jti : String) (now : Time) (userID email : List Nat) :
    AccessTokenClaims :=
  (writtenClaims s jti now userID email).decoded

/-- The parameters `Login` hands to `CreateSession`. -/
def loginSessionParams {σ : Type} (s : authService σ) (now : Time) (user : User)
    (refreshToken userAgent ipAddress : String) : CreateSessionParams :=
  { UserID := user.ID
    RefreshTokenHash := refreshToken
    UserAgent := { String := userAgent, Valid := userAgent != "" }
    IpAddress := { String := ipAddress, Valid := ipAddress != "" }
    ExpiresAt := { Time := Add now s.refreshTokenExpiry, Valid := true } }

/-- A stand-in for the hash functions and the serialiser, for evaluating: the
digest of a message is the message itself. -/
def plainPrimitives : Primitives :=
  { Sum := fun _ m => m
    SigningString := fun alg c => utf8Bytes alg ++ 46 :: c.UserID ++ 46 :: c.ID }

/-- A user identifier for evaluating: sixteen bytes, all `n`. -/
def sampleUUID (n : Nat) : UUID := { Bytes := List.replicate 16 n, Valid := true, size := rfl }

/-- A token service for evaluating the callers of `JWTService`: it issues and
accepts the one token `good`, with fixed claims, and calls any other token
invalid. -/
def sampleJWTService : JWTService Store :=
  { GenerateAccessToken := fun _ _ st => (.ok ("good", "jti-1"), st)
    GenerateRefreshToken := fun st => (.ok "refresh-1", st)
    ValidateAccessToken := fun token st =>
      if token = "good" then
        (.ok { UserID := "user-1", Email := "a@b.c", ID := "jti-1", IssuedAt := some 0,
               ExpiresAt := some (15 * Minute), NotBefore := some 0 }, st)
      else (.error .ErrInvalidToken, st)
    ParseAccessToken := fun _ st => (.error .ErrInvalidToken, st) }

/-- A stand-in for `pgtype.UUID.Scan`, for evaluating: it reads `user-1`. -/
def sampleScan (src : String) : Except Error UUID :=
  if src = "user-1" then .ok (sampleUUID 1) else .error (.other "cannot parse UUID")

/-- A user service for evaluating: one user, `a@b.c` with password `pw`. -/
def sampleUserService : UserService Store :=
  { AuthenticateUser := fun email password st =>
      if email = "a@b.c" ∧ password = "pw" then (.ok { ID := sampleUUID 1, Email := email }, st)
      else (.error (.other "invalid password"), st) }

/-- A stored session of that user, with refresh secret `refresh-1`. -/
def sampleSession : Session :=
  { ID := sampleUUID 9, UserID := sampleUUID 1, RefreshTokenHash := "refresh-1",
    UserAgent := { String := "", Valid := false }, IpAddress := { String := "", Valid := false },
    CreatedAt := { Time := 0, Valid := true }, LastUsedAt := { Time := 0, Valid := true },
    ExpiresAt := { Time := 60 * Minute, Valid := true } }

/-- A blacklist entry for the jti of the token `good`. -/
def sampleEntry : BlacklistEntry :=
  { TokenJti := "jti-1", UserID := sampleUUID 1,
    Reason := { String := "user logout", Valid := true },
    ExpiresAt := { Time := 15 * Minute, Valid := true } }

/-- An auth service over the session store, with an access TTL of fifteen
minutes and a refresh TTL of an hour. -/
def sampleAuthService (clock : Time) (fault : StoreOp → Option Error) : authService Store :=
  NewAuthService sampleUserService (storeRepository clock (sampleUUID 9) fault) sampleJWTService
    (15 * Minute) (60 * Minute)

/-- A record store that fails `CreateSession` and nothing else. -/
def createFails : StoreOp → Option Error := fun op =>
  if op = .CreateSession then some (.other "connection refused") else none

/-- A record store that fails the session lookup and nothing else. -/
def lookupFails : StoreOp → Option Error := fun op =>
  if op = .GetSessionByRefreshTokenHash then some (.other "connection refused") else none

/-- A call of one of the six operations of the auth service, with its
arguments; `now` is the clock reading the operation takes, where it takes
one. -/
inductive Call
  | Login (now : Time) (email password userAgent ipAddress : String)
  | RefreshToken (refreshToken userAgent ipAddress : String)
  | Logout (now : Time) (refreshToken accessTokenJTI : String) (userID : UUID)
  | LogoutAllSessions (userID : UUID)
  | RevokeToken (now : Time) (tokenJTI : String) (userID : UUID) (reason : String)
  | CleanupExpiredSessions

/-- The clock reading from which a call computes a blacklist entry's expiry,
for the two operations that write one. -/
def Call.writeTime : Call → Option Time
  | .Logout now _ _ _ => some now
  | .RevokeToken now _ _ _ => some now
  | _ => none

/-- One call in a history of the auth service, with the record store as it
answers that call: its clock, the identifier it gives a new session, and the
operations it fails. -/
structure Step where
  call : Call
  clock : Time
  newID : UUID
  fault : StoreOp → Option Error

/-- The auth service `s` over the session store as it answers at a step. -/
def authServiceAt (s : authService Store) (step : Step) : authService Store :=
  { s with sessionRepository := storeRepository step.clock step.newID step.fault }

/-- The session store after the call of a step. -/
def Step.run (s : authService Store) (step : Step) (st : Store) : Store :=
  match step.call with
  | .Login now email password userAgent ipAddress =>
    (Login (authServiceAt s step) now email password userAgent ipAddress st).2
  | .RefreshToken refreshToken userAgent ipAddress =>
    (RefreshToken (authServiceAt s step) refreshToken userAgent ipAddress st).2
  | .Logout now refreshToken accessTokenJTI userID =>
    (Logout (authServiceAt s step) now refreshToken accessTokenJTI userID st).2
  | .LogoutAllSessions userID => (LogoutAllSessions (authServiceAt s step) userID st).2
  | .RevokeToken now tokenJTI userID reason =>
    (RevokeToken (authServiceAt s step) now tokenJTI userID reason st).2
  | .CleanupExpiredSessions => (CleanupExpiredSessions (authServiceAt s step) st).2

/-- The session store after the calls of a history, in order. -/
def runSteps (s : authService Store) (steps : List Step) (st : Store) : Store :=
  steps.foldl (fun st step => step.run s st) st

/-- That the blacklist holds under `jti` an entry that expires no earlier than
`exp`. -/
def blacklistedUntil (st : Store) (jti : String) (exp : Time) : Prop :=
  ∃ entry, st.blacklist.find? (fun e => e.TokenJti == jti) = some entry ∧
    exp ≤ entry.ExpiresAt.Time

/-- A history for evaluating, within the life of a token that expires at
900 s: a sweep at 500 s, a login at 600 s, the revocation of another jti at
700 s, and a sweep at 899 s. -/
def sampleSteps : List Step :=
  [{ call := .CleanupExpiredSessions, clock := 500 * Second, newID := sampleUUID 8,
     fault := noFault },
   { call := .Login (600 * Second) "a@b.c" "pw" "" "", clock := 600 * Second,
     newID := sampleUUID 8, fault := noFault },
   { call := .RevokeToken (700 * Second) "jti-2" (sampleUUID 1) "abuse", clock := 700 * Second,
     newID := sampleUUID 8, fault := noFault },
   { call := .CleanupExpiredSessions, clock := 899 * Second, newID := sampleUUID 8,
     fault := noFault }]

/-! ## The token codec -/

/-- A one-byte rune decodes to itself. -/
theorem DecodeRune_one (r : Nat) (rest : List Nat) (h : r < 0x80) :
    DecodeRune (r :: rest) = (r, 1) := by
  simp [DecodeRune, h]

/-- The two bytes of a rune decode to it. -/
theorem DecodeRune_two (r : Nat) (rest : List Nat) (h0 : 0x80 ≤ r) (h1 : r < 0x800) :
    DecodeRune ((0xC0 + r / 64) :: (0x80 + r % 64) :: rest) = (r, 2) := by
  simp (disch := omega) only [DecodeRune, if_pos, if_neg]
  try split_ifs
  all_goals first | omega | (simp only [Prod.mk.injEq, and_true]; omega)

/-- The three bytes of a rune that is no surrogate decode to it. -/
theorem DecodeRune_three (r : Nat) (rest : List Nat) (h0 : 0x800 ≤ r) (h1 : r < 0x10000)
    (hs : r < 0xd800 ∨ 0xdfff < r) :
    DecodeRune ((0xE0 + r / 4096) :: (0x80 + r / 64 % 64) :: (0x80 + r % 64) :: rest) =
      (r, 3) := by
  simp (disch := omega) only [DecodeRune, if_pos, if_neg]
  try split_ifs
  all_goals first | omega | (simp only [Prod.mk.injEq, and_true]; omega)

/-- The four bytes of a rune decode to it. -/
theorem DecodeRune_four (r : Nat) (rest : List Nat) (h0 : 0x10000 ≤ r) (h1 : r < 0x110000) :
    DecodeRune ((0xF0 + r / 262144) :: (0x80 + r / 4096 % 64) :: (0x80 + r / 64 % 64) ::
      (0x80 + r % 64) :: rest) = (r, 4) := by
  simp (disch := omega) only [DecodeRune, if_pos, if_neg]
  try split_ifs
  all_goals first | omega | (simp only [Prod.mk.injEq, and_true]; omega)

/-- The bytes of a character read back as that character. -/
theorem runes_EncodeRune (c : Char) (rest : List Nat) :
    runes 0 (EncodeRune c ++ rest) = c :: runes 0 rest := by
  have hv : c.toNat < 0xd800 ∨ (0xdfff < c.toNat ∧ c.toNat < 0x110000) := c.valid
  have hc : Char.ofNat c.toNat = c := Char.ofNat_toNat c
  unfold EncodeRune
  generalize c.toNat = r at hv hc
  simp only
  split_ifs with h1 h2 h3
  · simp [runes, DecodeRune_one r rest h1, hc]
  · simp [runes, DecodeRune_two r rest (by omega) h2, hc]
  · simp [runes, DecodeRune_three r rest (by omega) h3 (by omega), hc]
  · simp [runes, DecodeRune_four r rest (by omega) (by omega), hc]

/-- A text survives the JSON encoding of the Go string that holds it. -/
theorem jsonText_utf8Bytes (s : String) : jsonText (utf8Bytes s) = s := by
  have h : ∀ l : List Char, runes 0 (l.flatMap EncodeRune) = l := by
    intro l
    induction l with
    | nil => rfl
    | cons c cs ih => rw [List.flatMap_cons, runes_EncodeRune, ih]
  show String.mk (runes 0 (s.data.flatMap EncodeRune)) = s
  rw [h]

/-- What `GenerateAccessToken` returns: it never fails. -/
theorem GenerateAccessToken_eq (P : Primitives) (s : jwtService) (jti : String) (now : Time)
    (userID email : List Nat) :
    GenerateAccessToken P s jti now userID email =
      .ok (.compact (SigningString P (.HMAC .SHA256) (writtenClaims s jti now userID email))
        "HS256" (issuedClaims s jti now userID email)
        (hmacSum P .SHA256 s.secret
          (SigningString P (.HMAC .SHA256) (writtenClaims s jti now userID email))), jti) := by
  rfl

/-- Truncation does not move an instant forward. -/
theorem NewNumericDate_le (t : Time) : NewNumericDate t ≤ t := by
  unfold NewNumericDate Truncate Second
  simp only [show ¬ ((1000000000 : Int) ≤ 0) by decide, if_false]
  unfold Time at *
  omega

/-- Truncation moves an instant back by less than a second. -/
theorem NewNumericDate_gt (t : Time) : t - Second < NewNumericDate t := by
  unfold NewNumericDate Truncate Second
  simp only [show ¬ ((1000000000 : Int) ≤ 0) by decide, if_false]
  unfold Time at *
  omega

/-- A token of an HMAC method carrying the right tag passes or fails on its
dates alone. -/
theorem ValidateAccessToken_hmac (P : Primitives) (s : jwtService) (now : Time) (h : Hash)
    (alg : String) (text : List Nat) (c : AccessTokenClaims)
    (halg : GetSigningMethod alg = some (.HMAC h)) :
    ValidateAccessToken P s now (.compact text alg c (hmacSum P h s.secret text)) =
      match Validate now c.toRegisteredClaims with
      | [] => .ok c
      | errs => if JwtError.ErrTokenExpired ∈ errs then .error .ErrExpiredToken
                else .error .ErrInvalidToken := by
  simp only [ValidateAccessToken, ParseWithClaims, halg, keyFunc, SigningMethod.Verify, if_true]
  cases hv : Validate now c.toRegisteredClaims with
  | nil => simp
  | cons e es => simp

/-- The date checks on the claims of an issued token. -/
theorem Validate_issued (s : jwtService) (jti : String) (now0 now1 : Time)
    (userID email : List Nat) :
    Validate now1 (issuedClaims s jti now0 userID email).toRegisteredClaims =
      (if now1 < NewNumericDate (Add now0 s.accessTokenExpiry) then [] else [.ErrTokenExpired]) ++
      (if now1 < NewNumericDate now0 then [.ErrTokenNotValidYet] else []) := by
  rfl

/-- An issued token validated by its service at the clock reading of its issue
passes when the TTL is a second or more. -/
theorem ValidateAccessToken_issued_now (P : Primitives) (s : jwtService) (jti : String)
    (now : Time) (userID email : List Nat) (httl : Second ≤ s.accessTokenExpiry) :
    ValidateAccessToken P s now
      (.compact (SigningString P (.HMAC .SHA256) (writtenClaims s jti now userID email))
        "HS256" (issuedClaims s jti now userID email)
        (hmacSum P .SHA256 s.secret
          (SigningString P (.HMAC .SHA256) (writtenClaims s jti now userID email)))) =
      .ok (issuedClaims s jti now userID email) := by
  rw [ValidateAccessToken_hmac P s now .SHA256 "HS256" _ _ rfl, Validate_issued]
  have h1 : now < NewNumericDate (Add now s.accessTokenExpiry) := by
    have := NewNumericDate_gt (Add now s.accessTokenExpiry)
    unfold Add Second at *
    unfold Time Duration at *
    omega
  have h2 : ¬ now < NewNumericDate now := by
    have := NewNumericDate_le now
    unfold Time at *
    omega
  simp [h1, h2]

/-- Claim C1, as amended: for every secret, every access TTL of at least one
second and every `(user_id, email)` of well-formed UTF-8 text, the token
returned by `GenerateAccessToken`, passed to `ValidateAccessToken` of the same
service at the clock reading at which it was issued, succeeds and returns
claims whose `UserID`, `Email` and `ID` are `user_id`, `email` and the returned
jti. -/
theorem access_token_roundtrip (P : Primitives) (s : jwtService) (jti : String) (now : Time)
    (userID email : String) (httl : Second ≤ s.accessTokenExpiry) :
    ∃ tokenString claims,
      GenerateAccessToken P s jti now (utf8Bytes userID) (utf8Bytes email) =
        .ok (tokenString, jti) ∧
      ValidateAccessToken P s now tokenString = .ok claims ∧
      claims.UserID = userID ∧ claims.Email = email ∧ claims.ID = jti :=
  ⟨_, issuedClaims s jti now (utf8Bytes userID) (utf8Bytes email),
    GenerateAccessToken_eq P s jti now _ _,
    ValidateAccessToken_issued_now P s jti now _ _ httl,
    jsonText_utf8Bytes userID, jsonText_utf8Bytes email, jsonText_utf8Bytes jti⟩

/-- The round trip of C1 at a fifteen-minute TTL, issued and validated at
1.5 s. -/
theorem access_token_roundtrip_witness :
    Second ≤ (NewJWTService [107] (15 * Minute) (60 * Minute)).accessTokenExpiry ∧
    ∀ P : Primitives, ∃ tokenString claims,
      GenerateAccessToken P (NewJWTService [107] (15 * Minute) (60 * Minute)) "jti-1" 1500000000
        (utf8Bytes "123e4567-e89b-12d3-a456-426614174000") (utf8Bytes "test@example.com") =
        .ok (tokenString, "jti-1") ∧
      ValidateAccessToken P (NewJWTService [107] (15 * Minute) (60 * Minute)) 1500000000
        tokenString = .ok claims ∧
      claims.UserID = "123e4567-e89b-12d3-a456-426614174000" ∧
      claims.Email = "test@example.com" ∧ claims.ID = "jti-1" :=
  ⟨by decide, fun P => access_token_roundtrip P _ _ _ _ _ (by decide)⟩

/-- Claim C1 fails as stated, in two ways. With the positive TTL of one
millisecond, a token issued at 1.5 s carries `exp` = 1 s (whole seconds), and
validating it at the same clock reading returns `ErrExpiredToken`. With a TTL
of fifteen minutes and the user id `u` followed by the byte `0xFF`, which is
no UTF-8, validation succeeds and returns the user id `u` followed by U+FFFD,
whose bytes are not those of the user id given. -/
theorem access_token_roundtrip_fails :
    (0 < (NewJWTService [107] Millisecond (60 * Minute)).accessTokenExpiry ∧
      ∀ P : Primitives, ∃ tokenString,
        GenerateAccessToken P (NewJWTService [107] Millisecond (60 * Minute)) "jti-1" 1500000000
          (utf8Bytes "123") (utf8Bytes "test@example.com") = .ok (tokenString, "jti-1") ∧
        ValidateAccessToken P (NewJWTService [107] Millisecond (60 * Minute)) 1500000000
          tokenString = .error .ErrExpiredToken) ∧
    (∀ P : Primitives, ∃ tokenString claims,
      GenerateAccessToken P (NewJWTService [107] (15 * Minute) (60 * Minute)) "jti-1" 1500000000
        [0x75, 0xFF] (utf8Bytes "test@example.com") = .ok (tokenString, "jti-1") ∧
      ValidateAccessToken P (NewJWTService [107] (15 * Minute) (60 * Minute)) 1500000000
        tokenString = .ok claims ∧
      claims.UserID = "u\uFFFD" ∧ utf8Bytes claims.UserID ≠ [0x75, 0xFF]) := by
  refine ⟨⟨by decide, fun P => ⟨_, GenerateAccessToken_eq P _ _ _ _ _, ?_⟩⟩,
    fun P => ⟨_, _, GenerateAccessToken_eq P _ _ _ _ _,
      ValidateAccessToken_issued_now P _ _ _ _ _ (by decide), by decide, by decide⟩⟩
  rw [ValidateAccessToken_hmac P _ _ .SHA256 "HS256" _ _ rfl, Validate_issued]
  rfl

/-- A token of an HMAC method carrying another tag is invalid. -/
theorem ValidateAccessToken_bad_tag (P : Primitives) (s : jwtService) (now : Time) (h : Hash)
    (alg : String) (text sig : List Nat) (c : AccessTokenClaims)
    (halg : GetSigningMethod alg = some (.HMAC h)) (hsig : sig ≠ hmacSum P h s.secret text) :
    ValidateAccessToken P s now (.compact text alg c sig) = .error .ErrInvalidToken := by
  simp [ValidateAccessToken, ParseWithClaims, halg, keyFunc, SigningMethod.Verify, hsig]

/-- A padded key block is the key block of `hmacKey` with the pad applied. -/
theorem keyBlock_eq_map (pad : Nat) (key : List Nat) (n : Nat) :
    keyBlock pad key n = (keyBlock 0 key n).map (fun x => Nat.xor x pad) := by
  have h0 : ∀ a : Nat, Nat.xor a 0 = a := fun a => Nat.xor_zero a
  simp [keyBlock, List.map_map, Function.comp_def, h0]

/-- The tag computed from the key block. -/
theorem hmacSum_eq (P : Primitives) (h : Hash) (key msg : List Nat) :
    hmacSum P h key msg =
      P.Sum h ((hmacKey P h key).map (fun x => Nat.xor x 0x5c) ++
        P.Sum h ((hmacKey P h key).map (fun x => Nat.xor x 0x36) ++ msg)) := by
  simp only [hmacSum, hmacKey]
  rw [keyBlock_eq_map 0x5c, keyBlock_eq_map 0x36]

/-- Secrets with the same key block give the same tag for every text. -/
theorem hmacSum_congr (P : Primitives) (h : Hash) (k1 k2 msg : List Nat)
    (hk : hmacKey P h k1 = hmacKey P h k2) : hmacSum P h k1 msg = hmacSum P h k2 msg := by
  rw [hmacSum_eq, hmacSum_eq, hk]

/-- Under a collision-free hash, equal tags come from equal key blocks. -/
theorem hmacKey_of_hmacSum (P : Primitives) (h : Hash) (k1 k2 m1 m2 : List Nat)
    (hinj : Function.Injective (P.Sum h)) (ht : hmacSum P h k1 m1 = hmacSum P h k2 m2) :
    hmacKey P h k1 = hmacKey P h k2 := by
  rw [hmacSum_eq, hmacSum_eq] at ht
  have h1 := hinj ht
  have hl : ((hmacKey P h k1).map (fun x => Nat.xor x 0x5c)).length =
      ((hmacKey P h k2).map (fun x => Nat.xor x 0x5c)).length := by
    simp [hmacKey, keyBlock]
  have h2 := (List.append_inj h1 hl).1
  have hx : Function.Injective (fun x : Nat => Nat.xor x 0x5c) := fun a b hab =>
    Nat.xor_left_injective hab
  exact List.map_injective_iff.mpr hx h2

/-- A token validates alike under two secrets with the same key block. -/
theorem ValidateAccessToken_congr (P : Primitives) (s1 s2 : jwtService) (now : Time)
    (tokenString : TokenString)
    (hk : ∀ h : Hash, hmacKey P h s1.secret = hmacKey P h s2.secret) :
    ValidateAccessToken P s1 now tokenString = ValidateAccessToken P s2 now tokenString := by
  cases tokenString with
  | malformed => rfl
  | badSignature t alg c => rfl
  | compact t alg c sig =>
    cases hg : GetSigningMethod alg with
    | none => simp [ValidateAccessToken, ParseWithClaims, hg]
    | some m =>
      cases m with
      | HMAC h =>
        simp only [ValidateAccessToken, ParseWithClaims, hg, keyFunc, SigningMethod.Verify,
          hmacSum_congr P h s1.secret s2.secret t (hk h)]
      | _ => simp [ValidateAccessToken, ParseWithClaims, hg, keyFunc]

/-- Claim C2, as amended: with SHA-256 taken to be free of collisions, for
every pair of secrets `s1`, `s2` whose HMAC key blocks differ (the key block of
a secret is the secret, or its SHA-256 digest when it is longer than 64 bytes,
followed by zero bytes up to 64 bytes) and every `(user_id, email)`, the token
issued by a service built with `s1` is rejected by `ValidateAccessToken` of a
service built with `s2`, at any time, with no claims and the error
`ErrInvalidToken`. -/
theorem other_secret_rejected (P : Primitives) (s1 s2 : jwtService) (jti : String)
    (now0 now1 : Time) (userID email : List Nat)
    (hinj : Function.Injective (P.Sum .SHA256))
    (hkey : hmacKey P .SHA256 s1.secret ≠ hmacKey P .SHA256 s2.secret) :
    ∃ tokenString,
      GenerateAccessToken P s1 jti now0 userID email = .ok (tokenString, jti) ∧
      ValidateAccessToken P s2 now1 tokenString = .error .ErrInvalidToken :=
  ⟨_, GenerateAccessToken_eq P s1 jti now0 userID email,
    ValidateAccessToken_bad_tag P s2 now1 .SHA256 "HS256" _ _ _ rfl
      (fun ht => hkey (hmacKey_of_hmacSum P .SHA256 _ _ _ _ hinj ht))⟩

/-- The rejection of C2 for the secrets `k` and `l`, evaluated with the
stand-in hash, which is free of collisions. -/
theorem other_secret_rejected_witness :
    Function.Injective (plainPrimitives.Sum .SHA256) ∧
    hmacKey plainPrimitives .SHA256 (NewJWTService [107] (15 * Minute) (60 * Minute)).secret ≠
      hmacKey plainPrimitives .SHA256 (NewJWTService [108] (15 * Minute) (60 * Minute)).secret ∧
    ∃ tokenString,
      GenerateAccessToken plainPrimitives (NewJWTService [107] (15 * Minute) (60 * Minute))
        "jti-1" 0 (utf8Bytes "123") (utf8Bytes "test@example.com") = .ok (tokenString, "jti-1") ∧
      ValidateAccessToken plainPrimitives (NewJWTService [108] (15 * Minute) (60 * Minute))
        0 tokenString = .error .ErrInvalidToken :=
  ⟨fun _ _ h => h, by decide,
    other_secret_rejected plainPrimitives _ _ _ _ _ _ _ (fun _ _ h => h) (by decide)⟩

/-- Claim C2 fails as stated: the secrets `k` and `k` followed by a zero byte
are distinct and have the same HMAC key block, and whatever the hash function,
the token issued under the first is accepted by the service built with the
second. -/
theorem other_secret_accepted_when_zero_padded :
    (NewJWTService [107] (15 * Minute) (60 * Minute)).secret ≠
      (NewJWTService [107, 0] (15 * Minute) (60 * Minute)).secret ∧
    ∀ P : Primitives,
      hmacKey P .SHA256 (NewJWTService [107] (15 * Minute) (60 * Minute)).secret =
        hmacKey P .SHA256 (NewJWTService [107, 0] (15 * Minute) (60 * Minute)).secret ∧
      ∃ tokenString claims,
        GenerateAccessToken P (NewJWTService [107] (15 * Minute) (60 * Minute))
          "jti-1" 0 (utf8Bytes "123") (utf8Bytes "test@example.com") =
          .ok (tokenString, "jti-1") ∧
        ValidateAccessToken P (NewJWTService [107, 0] (15 * Minute) (60 * Minute))
          0 tokenString = .ok claims := by
  refine ⟨by decide, fun P => ⟨rfl, _,
    issuedClaims (NewJWTService [107] (15 * Minute) (60 * Minute))
      "jti-1" 0 (utf8Bytes "123") (utf8Bytes "test@example.com"),
    GenerateAccessToken_eq P _ _ _ _ _, ?_⟩⟩
  have hk : ∀ text, hmacSum P .SHA256 [107] text = hmacSum P .SHA256 [107, 0] text :=
    fun text => hmacSum_congr P .SHA256 [107] [107, 0] text rfl
  show ValidateAccessToken P (NewJWTService [107, 0] (15 * Minute) (60 * Minute)) 0
    (.compact _ "HS256" _ (hmacSum P .SHA256 [107] _)) = _
  rw [hk]
  exact (ValidateAccessToken_hmac P (NewJWTService [107, 0] (15 * Minute) (60 * Minute)) 0
    .SHA256 "HS256" _ _ rfl).trans rfl

/-- Claim C3: for every token issued by `GenerateAccessToken`,
`ValidateAccessToken` of the same service at any time after the token's
`expires_at` returns `ErrExpiredToken`, and not `ErrInvalidToken`. -/
theorem expired_token_reported_expired (P : Primitives) (s : jwtService) (jti : String)
    (now0 now1 exp : Time) (userID email : List Nat)
    (hexp : (issuedClaims s jti now0 userID email).ExpiresAt = some exp) (hlate : exp < now1) :
    ∃ tokenString,
      GenerateAccessToken P s jti now0 userID email = .ok (tokenString, jti) ∧
      ValidateAccessToken P s now1 tokenString = .error .ErrExpiredToken ∧
      ValidateAccessToken P s now1 tokenString ≠ .error .ErrInvalidToken := by
  have h : ValidateAccessToken P s now1
      (.compact (SigningString P (.HMAC .SHA256) (writtenClaims s jti now0 userID email)) "HS256"
        (issuedClaims s jti now0 userID email)
        (hmacSum P .SHA256 s.secret
          (SigningString P (.HMAC .SHA256) (writtenClaims s jti now0 userID email)))) =
      .error .ErrExpiredToken := by
    rw [ValidateAccessToken_hmac P s now1 .SHA256 "HS256" _ _ rfl, Validate_issued]
    have h1 : ¬ now1 < NewNumericDate (Add now0 s.accessTokenExpiry) := by
      have h0 : NewNumericDate (Add now0 s.accessTokenExpiry) = exp := Option.some.inj hexp
      rw [h0]
      unfold Time at *
      omega
    by_cases h2 : now1 < NewNumericDate now0 <;> simp [h1, h2]
  refine ⟨_, GenerateAccessToken_eq P s jti now0 userID email, h, ?_⟩
  rw [h]
  simp

/-- The result of C3 for the one-millisecond service of the repository's
test: issued at 1.5 s, validated 10 ms later. -/
theorem expired_token_reported_expired_witness :
    (1000000000 : Time) < 1510000000 ∧
    ∀ P : Primitives, ∃ tokenString,
      GenerateAccessToken P (NewJWTService [107] Millisecond (60 * Minute)) "jti-1" 1500000000
        (utf8Bytes "123") (utf8Bytes "test@example.com") = .ok (tokenString, "jti-1") ∧
      ValidateAccessToken P (NewJWTService [107] Millisecond (60 * Minute)) 1510000000
        tokenString = .error .ErrExpiredToken ∧
      ValidateAccessToken P (NewJWTService [107] Millisecond (60 * Minute)) 1510000000
        tokenString ≠ .error .ErrInvalidToken :=
  ⟨by decide,
   fun P => expired_token_reported_expired P _ _ _ _ 1000000000 _ _ (by decide) (by decide)⟩

/-- A name other than HS256, HS384 and HS512 is not registered to an HMAC
method. -/
theorem GetSigningMethod_not_hmac (alg : String)
    (h256 : alg ≠ "HS256") (h384 : alg ≠ "HS384") (h512 : alg ≠ "HS512") (h : Hash) :
    GetSigningMethod alg ≠ some (.HMAC h) := by
  intro hg
  have hp := List.find?_some hg
  cases h <;> simp [SigningMethod.Alg] at hp <;> simp_all

/-- The name of an HMAC method is registered to it. -/
theorem GetSigningMethod_hmac (h : Hash) :
    GetSigningMethod (SigningMethod.HMAC h).Alg = some (.HMAC h) := by
  cases h <;> rfl

/-- A token whose signature segment cannot be decoded is invalid. -/
theorem ValidateAccessToken_badSignature (P : Primitives) (s : jwtService) (now : Time)
    (text : List Nat) (alg : String) (c : AccessTokenClaims) :
    ValidateAccessToken P s now (.badSignature text alg c) = .error .ErrInvalidToken := by
  cases hg : GetSigningMethod alg <;> simp [ValidateAccessToken, ParseWithClaims, hg]

/-- Claim C4, as amended: `ValidateAccessToken` returns `ErrInvalidToken` for
every token whose header declares an algorithm other than the three HMAC
algorithms HS256, HS384 and HS512, whatever its signature segment (decodable or
not); and a token whose header declares HS256, HS384 or HS512 is verified
against the shared secret in the same way for all three: it is `ErrInvalidToken`
unless its signature is the HMAC tag of the signed text under the secret with
the declared hash, and then the outcome is that of the date checks alone (the
claims, `ErrExpiredToken` or `ErrInvalidToken`). -/
theorem non_hmac_algorithm_rejected (P : Primitives) (s : jwtService) (now : Time)
    (signingString : List Nat) (alg : String) (claims : AccessTokenClaims)
    (signature : List Nat) :
    ((alg ≠ "HS256" ∧ alg ≠ "HS384" ∧ alg ≠ "HS512") →
      ValidateAccessToken P s now (.compact signingString alg claims signature) =
        .error .ErrInvalidToken ∧
      ValidateAccessToken P s now (.badSignature signingString alg claims) =
        .error .ErrInvalidToken) ∧
    (∀ h : Hash, alg = (SigningMethod.HMAC h).Alg →
      ValidateAccessToken P s now (.compact signingString alg claims signature) =
        (if signature = hmacSum P h s.secret signingString then
          match Validate now claims.toRegisteredClaims with
          | [] => .ok claims
          | errs => if JwtError.ErrTokenExpired ∈ errs then .error .ErrExpiredToken
                    else .error .ErrInvalidToken
        else .error .ErrInvalidToken) ∧
      ValidateAccessToken P s now (.badSignature signingString alg claims) =
        .error .ErrInvalidToken) := by
  refine ⟨fun hne => ⟨?_, ValidateAccessToken_badSignature P s now _ _ _⟩,
    fun h halg => ⟨?_, ValidateAccessToken_badSignature P s now _ _ _⟩⟩
  · have hm := GetSigningMethod_not_hmac alg hne.1 hne.2.1 hne.2.2
    cases hg : GetSigningMethod alg with
    | none => simp [ValidateAccessToken, ParseWithClaims, hg]
    | some m =>
      cases m with
      | HMAC h => exact absurd hg (hm h)
      | _ => simp [ValidateAccessToken, ParseWithClaims, hg, keyFunc]
  · have hg : GetSigningMethod alg = some (.HMAC h) := halg ▸ GetSigningMethod_hmac h
    by_cases hsig : signature = hmacSum P h s.secret signingString
    · rw [if_pos hsig, hsig]
      exact ValidateAccessToken_hmac P s now h alg signingString claims hg
    · rw [if_neg hsig]
      exact ValidateAccessToken_bad_tag P s now h alg signingString signature claims hg hsig

/-- The rule of C4 at three tokens: one declaring `none` is rejected with and
without a decodable signature, and one declaring HS384 and carrying the HS384
tag of the shared secret is accepted. -/
theorem non_hmac_algorithm_rejected_witness :
    ("none" ≠ "HS256" ∧ "none" ≠ "HS384" ∧ "none" ≠ "HS512") ∧
    "HS384" = (SigningMethod.HMAC .SHA384).Alg ∧
    ∀ P : Primitives,
      (ValidateAccessToken P (NewJWTService [107] (15 * Minute) (60 * Minute)) 0
        (.compact [1, 2, 3] "none"
          (issuedClaims (NewJWTService [107] (15 * Minute) (60 * Minute)) "jti-1" 0
            (utf8Bytes "123") (utf8Bytes "a@b.c")) []) = .error .ErrInvalidToken ∧
       ValidateAccessToken P (NewJWTService [107] (15 * Minute) (60 * Minute)) 0
        (.badSignature [1, 2, 3] "none"
          (issuedClaims (NewJWTService [107] (15 * Minute) (60 * Minute)) "jti-1" 0
            (utf8Bytes "123") (utf8Bytes "a@b.c"))) = .error .ErrInvalidToken) ∧
      ValidateAccessToken P (NewJWTService [107] (15 * Minute) (60 * Minute)) 0
        (.compact [1, 2, 3] "HS384"
          (issuedClaims (NewJWTService [107] (15 * Minute) (60 * Minute)) "jti-1" 0
            (utf8Bytes "123") (utf8Bytes "a@b.c"))
          (hmacSum P .SHA384 [107] [1, 2, 3])) =
        .ok (issuedClaims (NewJWTService [107] (15 * Minute) (60 * Minute)) "jti-1" 0
          (utf8Bytes "123") (utf8Bytes "a@b.c")) :=
  ⟨by decide, by decide, fun P =>
    ⟨(non_hmac_algorithm_rejected P _ _ _ _ _ _).1 (by decide),
     ((non_hmac_algorithm_rejected P (NewJWTService [107] (15 * Minute) (60 * Minute)) 0
        [1, 2, 3] "HS384" _ (hmacSum P .SHA384 [107] [1, 2, 3])).2 .SHA384 rfl).1.trans
       ((if_pos rfl).trans rfl)⟩⟩

/-- Claim C4 fails as stated: a token whose header declares HS512, signed with
the shared secret, declares an algorithm other than HS256 and is accepted. -/
theorem hs512_token_accepted :
    "HS512" ≠ "HS256" ∧
    ∀ P : Primitives, ∃ signingString signature,
      SignedString P (.HMAC .SHA512)
        (writtenClaims (NewJWTService [107] (15 * Minute) (60 * Minute)) "jti-1" 0
          (utf8Bytes "123") (utf8Bytes "a@b.c"))
        [107] = .ok (.compact signingString "HS512"
          (issuedClaims (NewJWTService [107] (15 * Minute) (60 * Minute)) "jti-1" 0
            (utf8Bytes "123") (utf8Bytes "a@b.c"))
          signature) ∧
      ValidateAccessToken P (NewJWTService [107] (15 * Minute) (60 * Minute)) 0
        (.compact signingString "HS512"
          (issuedClaims (NewJWTService [107] (15 * Minute) (60 * Minute)) "jti-1" 0
            (utf8Bytes "123") (utf8Bytes "a@b.c"))
          signature) =
        .ok (issuedClaims (NewJWTService [107] (15 * Minute) (60 * Minute)) "jti-1" 0
          (utf8Bytes "123") (utf8Bytes "a@b.c")) := by
  refine ⟨by decide, fun P => ⟨_, _, rfl, ?_⟩⟩
  exact (ValidateAccessToken_hmac P (NewJWTService [107] (15 * Minute) (60 * Minute)) 0
    .SHA512 "HS512" _ _ rfl).trans rfl

/-! ## The request authenticator -/

/-- A cut text is the two parts around a space. -/
theorem cutSpace_some (l a b : List Char) (h : cutSpace l = some (a, b)) :
    l = a ++ ' ' :: b := by
  induction l generalizing a with
  | nil => simp [cutSpace] at h
  | cons c cs ih =>
    unfold cutSpace at h
    split_ifs at h with hc
    · simp at h
      obtain ⟨rfl, rfl⟩ := h
      simp [hc]
    · cases hcs : cutSpace cs with
      | none => simp [hcs] at h
      | some p =>
        obtain ⟨a1, b1⟩ := p
        simp [hcs] at h
        obtain ⟨rfl, rfl⟩ := h
        simp [ih a1 hcs]

/-- The cut falls at the first space. -/
theorem cutSpace_append (a b : List Char) (h : ' ' ∉ a) :
    cutSpace (a ++ ' ' :: b) = some (a, b) := by
  induction a with
  | nil => simp [cutSpace]
  | cons c cs ih =>
    simp at h
    have hc : ¬ c = ' ' := fun e => h.1 e.symm
    simp [cutSpace, hc, ih h.2]

/-- Splitting a bearer header gives the word and the token. -/
theorem SplitN2_bearer (token : String) : SplitN2 ("Bearer " ++ token) = ["Bearer", token] := by
  have hc : cutSpace ("Bearer " ++ token).data = some ("Bearer".data, token.data) := by
    rw [String.data_append]
    exact cutSpace_append "Bearer".data token.data (by decide)
  unfold SplitN2
  rw [hc]

/-- The header passes the format check exactly when it is `Bearer`, one space
and a token. -/
theorem bearer_format (h : String) :
    (¬ ((SplitN2 h).length ≠ 2 ∨ (SplitN2 h).getD 0 "" ≠ "Bearer")) ↔
      ∃ token, h = "Bearer " ++ token := by
  constructor
  · intro hp
    simp only [not_or, not_not] at hp
    obtain ⟨hlen, h0⟩ := hp
    unfold SplitN2 at hlen h0
    cases hc : cutSpace h.data with
    | none => simp [hc] at hlen
    | some p =>
      obtain ⟨a, b⟩ := p
      simp only [hc, List.getD_cons_zero] at h0
      have ha : a = "Bearer".data := congrArg String.data h0
      have := cutSpace_some _ _ _ hc
      refine ⟨String.mk b, ?_⟩
      apply String.ext
      rw [this, String.data_append, ha]
      rfl
  · rintro ⟨token, rfl⟩
    rw [SplitN2_bearer]
    simp


/-- A bearer header is not empty. -/
theorem bearer_ne_empty (token : String) : "Bearer " ++ token ≠ "" := by
  intro h
  have := congrArg String.data h
  rw [String.data_append] at this
  exact absurd this (by simp)

/-- What authentication of a request yields: the identity to attach, or the
error response `RequireAuth` writes. -/
theorem RequireAuth_cases {σ : Type} (Scan : String → Except Error UUID)
    (jwtService : JWTService σ) (sessionRepo : SessionRepository σ) (r : Request) (w : σ) :
    (∃ token claims w1 w2 userID,
        r.Authorization = "Bearer " ++ token ∧
        jwtService.ValidateAccessToken token w = (.ok claims, w1) ∧
        sessionRepo.IsTokenBlacklisted claims.ID w1 = (.ok false, w2) ∧
        Scan claims.UserID = .ok userID ∧
        (RequireAuth Scan jwtService sessionRepo r w).1 =
          [.ServeHTTP { r with ctx := SetJTI (SetUserID r.ctx userID) claims.ID }]) ∨
    ((¬ ∃ token claims w1 w2 userID,
        r.Authorization = "Bearer " ++ token ∧
        jwtService.ValidateAccessToken token w = (.ok claims, w1) ∧
        sessionRepo.IsTokenBlacklisted claims.ID w1 = (.ok false, w2) ∧
        Scan claims.UserID = .ok userID) ∧
      ∃ status message,
        (RequireAuth Scan jwtService sessionRepo r w).1 = [.SendError status message]) := by
  by_cases hfmt : ∃ token, r.Authorization = "Bearer " ++ token
  · obtain ⟨token, hA⟩ := hfmt
    have huniq : ∀ t, r.Authorization = "Bearer " ++ t → t = token := by
      intro t ht
      have h1 := SplitN2_bearer t
      rw [← ht, hA, SplitN2_bearer] at h1
      simpa using h1.symm
    rcases hv : jwtService.ValidateAccessToken token w with ⟨res, w1⟩
    cases res with
    | error err =>
      right
      refine ⟨?_, ?_⟩
      · rintro ⟨t, c, w1', w2', u, ht, hval, -⟩
        rw [huniq t ht, hv] at hval
        simp at hval
      · simp [RequireAuth, hA, bearer_ne_empty, SplitN2_bearer, hv]
    | ok claims =>
      rcases hb : sessionRepo.IsTokenBlacklisted claims.ID w1 with ⟨bres, w2⟩
      cases bres with
      | error err =>
        right
        refine ⟨?_, ?_⟩
        · rintro ⟨t, c, w1', w2', u, ht, hval, hbl, -⟩
          rw [huniq t ht, hv] at hval
          simp at hval
          obtain ⟨rfl, rfl⟩ := hval
          rw [hb] at hbl
          simp at hbl
        · simp [RequireAuth, hA, bearer_ne_empty, SplitN2_bearer, hv, hb]
      | ok isBlacklisted =>
        cases isBlacklisted with
        | true =>
          right
          refine ⟨?_, ?_⟩
          · rintro ⟨t, c, w1', w2', u, ht, hval, hbl, -⟩
            rw [huniq t ht, hv] at hval
            simp at hval
            obtain ⟨rfl, rfl⟩ := hval
            rw [hb] at hbl
            simp at hbl
          · simp [RequireAuth, hA, bearer_ne_empty, SplitN2_bearer, hv, hb]
        | false =>
          cases hs : Scan claims.UserID with
          | error err =>
            right
            refine ⟨?_, ?_⟩
            · rintro ⟨t, c, w1', w2', u, ht, hval, hbl, hscan⟩
              rw [huniq t ht, hv] at hval
              simp at hval
              obtain ⟨rfl, rfl⟩ := hval
              rw [hs] at hscan
              simp at hscan
            · simp [RequireAuth, hA, bearer_ne_empty, SplitN2_bearer, hv, hb, hs]
          | ok userID =>
            left
            refine ⟨token, claims, w1, w2, userID, hA, hv, hb, hs, ?_⟩
            simp [RequireAuth, hA, bearer_ne_empty, SplitN2_bearer, hv, hb, hs]
  · right
    refine ⟨?_, ?_⟩
    · rintro ⟨t, c, w1', w2', u, ht, -⟩
      exact hfmt ⟨t, ht⟩
    · have hf := (bearer_format r.Authorization).not.mpr hfmt
      simp only [not_not] at hf
      by_cases he : r.Authorization = ""
      · simp [RequireAuth, he]
      · simp only [RequireAuth, he, if_false, hf, if_true]
        exact ⟨_, _, rfl⟩


/-- Claim C5: for every request, `RequireAuth` invokes the downstream handler
if and only if the Authorization header is `Bearer <token>`,
`ValidateAccessToken(token)` succeeds, `IsTokenBlacklisted(claims.ID)` returns
false with no error and the claims' user id parses; whenever the handler is not
invoked an error response is written, in particular when the blacklist lookup
returns an error. -/
theorem RequireAuth_serves_iff {σ : Type} (Scan : String → Except Error UUID)
    (jwtService : JWTService σ) (sessionRepo : SessionRepository σ) (r : Request) (w : σ) :
    (served (RequireAuth Scan jwtService sessionRepo r w).1 ≠ [] ↔
      ∃ token claims w1 w2 userID,
        r.Authorization = "Bearer " ++ token ∧
        jwtService.ValidateAccessToken token w = (.ok claims, w1) ∧
        sessionRepo.IsTokenBlacklisted claims.ID w1 = (.ok false, w2) ∧
        Scan claims.UserID = .ok userID) ∧
    (served (RequireAuth Scan jwtService sessionRepo r w).1 = [] →
      errorsSent (RequireAuth Scan jwtService sessionRepo r w).1 ≠ []) ∧
    (∀ token claims w1 err w2,
      r.Authorization = "Bearer " ++ token →
      jwtService.ValidateAccessToken token w = (.ok claims, w1) →
      sessionRepo.IsTokenBlacklisted claims.ID w1 = (.error err, w2) →
      served (RequireAuth Scan jwtService sessionRepo r w).1 = [] ∧
      errorsSent (RequireAuth Scan jwtService sessionRepo r w).1 ≠ []) := by
  rcases RequireAuth_cases Scan jwtService sessionRepo r w with
    ⟨token, claims, w1, w2, userID, hA, hv, hb, hs, hout⟩ | ⟨hn, status, message, hout⟩
  · refine ⟨?_, ?_, ?_⟩
    · rw [hout]
      simp only [served, ne_eq, reduceCtorEq, not_false_eq_true, true_iff]
      exact ⟨token, claims, w1, w2, userID, hA, hv, hb, hs⟩
    · rw [hout]
      simp [served]
    · intro t c w1' err w2' ht hval hbl
      have h1 := SplitN2_bearer t
      rw [← ht, hA, SplitN2_bearer] at h1
      simp only [List.cons.injEq, and_true, true_and] at h1
      subst h1
      rw [hv] at hval
      simp only [Prod.mk.injEq, Except.ok.injEq] at hval
      obtain ⟨rfl, rfl⟩ := hval
      rw [hb] at hbl
      simp at hbl
  · refine ⟨?_, ?_, ?_⟩
    · rw [hout]
      simp only [served, ne_eq, not_true_eq_false, false_iff]
      exact hn
    · rw [hout]
      simp [errorsSent]
    · intro t c w1' err w2' _ _ _
      rw [hout]
      simp [served, errorsSent]

/-- Claim C6: for every request whose bearer token passes
`ValidateAccessToken` and whose jti the session store reports as blacklisted,
`RequireAuth` writes status 401 with the message `token has been revoked` and
does not invoke the downstream handler. -/
theorem RequireAuth_rejects_revoked {σ : Type} (Scan : String → Except Error UUID)
    (jwtService : JWTService σ) (sessionRepo : SessionRepository σ) (r : Request) (w w1 w2 : σ)
    (token : String) (claims : AccessTokenClaims)
    (hA : r.Authorization = "Bearer " ++ token)
    (hv : jwtService.ValidateAccessToken token w = (.ok claims, w1))
    (hb : sessionRepo.IsTokenBlacklisted claims.ID w1 = (.ok true, w2)) :
    (RequireAuth Scan jwtService sessionRepo r w).1 =
      [.SendError 401 "token has been revoked"] ∧
    served (RequireAuth Scan jwtService sessionRepo r w).1 = [] := by
  have h : (RequireAuth Scan jwtService sessionRepo r w).1 =
      [.SendError 401 "token has been revoked"] := by
    simp [RequireAuth, hA, bearer_ne_empty, SplitN2_bearer, hv, hb, StatusUnauthorized]
  rw [h]
  exact ⟨rfl, rfl⟩

/-- The rejection of C6 for the token `good` with its jti on the blacklist. -/
theorem RequireAuth_rejects_revoked_witness :
    (RequireAuth sampleScan sampleJWTService (storeRepository 0 (sampleUUID 9) noFault)
        { Authorization := "Bearer good", ctx := { userID := none, jti := none } }
        { sessions := [], blacklist := [sampleEntry] }).1 =
      [.SendError 401 "token has been revoked"] ∧
    served (RequireAuth sampleScan sampleJWTService (storeRepository 0 (sampleUUID 9) noFault)
        { Authorization := "Bearer good", ctx := { userID := none, jti := none } }
        { sessions := [], blacklist := [sampleEntry] }).1 = [] :=
  RequireAuth_rejects_revoked sampleScan sampleJWTService
    (storeRepository 0 (sampleUUID 9) noFault) _ _ _ _ "good" _ rfl rfl rfl

/-- Claim C7: for every request and every outcome of token verification and
blacklist lookup, `ParseAuth` invokes the downstream handler exactly once and
writes no error response. -/
theorem ParseAuth_always_serves {σ : Type} (Scan : String → Except Error UUID)
    (jwtService : JWTService σ) (sessionRepo : SessionRepository σ) (r : Request) (w : σ) :
    (served (ParseAuth Scan jwtService sessionRepo r w).1).length = 1 ∧
    errorsSent (ParseAuth Scan jwtService sessionRepo r w).1 = [] := by
  unfold ParseAuth
  simp only
  repeat' split
  all_goals exact ⟨rfl, rfl⟩

/-! ## The auth orchestrator -/

/-- No session is found under a refresh secret once its rows are filtered out. -/
theorem find_after_delete (l : List Session) (secret : String) :
    (l.filter (fun x => x.RefreshTokenHash != secret)).find?
      (fun x => x.RefreshTokenHash == secret) = none := by
  rw [List.find?_eq_none]
  intro x hx
  have := (List.mem_filter.mp hx).2
  simpa using this

/-- Claim C8: over the session store keyed by refresh secret, after
`Logout(refresh_secret, jti, user_id)` returns without error, `RefreshToken`
with the same refresh secret returns `ErrSessionNotFound` and no access
token. -/
theorem logout_then_refresh_not_found (s1 s2 : authService Store) (clock1 clock2 : Time)
    (id1 id2 : UUID) (fault1 fault2 : StoreOp → Option Error) (now : Time)
    (refreshToken accessTokenJTI userAgent ipAddress : String) (userID : UUID) (st : Store)
    (hrepo1 : s1.sessionRepository = storeRepository clock1 id1 fault1)
    (hrepo2 : s2.sessionRepository = storeRepository clock2 id2 fault2)
    (hout : (Logout s1 now refreshToken accessTokenJTI userID st).1 = none) :
    RefreshToken s2 refreshToken userAgent ipAddress
        (Logout s1 now refreshToken accessTokenJTI userID st).2 =
      (("", 0, some .ErrSessionNotFound),
        (Logout s1 now refreshToken accessTokenJTI userID st).2) := by
  have hs : (Logout s1 now refreshToken accessTokenJTI userID st).2.sessions =
      st.sessions.filter (fun x => x.RefreshTokenHash != refreshToken) := by
    unfold Logout at hout ⊢
    rw [hrepo1] at hout ⊢
    simp only [storeRepository, execute] at hout ⊢
    cases hd : fault1 .DeleteSession with
    | some e => simp [hd] at hout
    | none =>
      by_cases hj : accessTokenJTI = ""
      · simp [hj]
      · cases hb : fault1 .BlacklistToken <;> simp [hj, hb]
  unfold RefreshToken
  rw [hrepo2]
  simp only [storeRepository, hs, find_after_delete]
  cases fault2 .GetSessionByRefreshTokenHash <;> rfl

/-- The result of C8 on a store holding one session: the refresh secret
resolves before the logout and no longer after it. -/
theorem logout_then_refresh_not_found_witness :
    (Logout (sampleAuthService 10 noFault) 10 "refresh-1" "jti-1" (sampleUUID 1)
      { sessions := [sampleSession], blacklist := [] }).1 = none ∧
    (RefreshToken (sampleAuthService 0 noFault) "refresh-1" "" ""
      { sessions := [sampleSession], blacklist := [] }).1 = ("good", 900, none) ∧
    RefreshToken (sampleAuthService 20 noFault) "refresh-1" "" ""
        (Logout (sampleAuthService 10 noFault) 10 "refresh-1" "jti-1" (sampleUUID 1)
          { sessions := [sampleSession], blacklist := [] }).2 =
      (("", 0, some .ErrSessionNotFound),
        (Logout (sampleAuthService 10 noFault) 10 "refresh-1" "jti-1" (sampleUUID 1)
          { sessions := [sampleSession], blacklist := [] }).2) :=
  ⟨by decide, by decide,
    logout_then_refresh_not_found _ _ 10 20 (sampleUUID 9) (sampleUUID 9) noFault noFault _ _ _ _ _
      _ _ rfl rfl (by decide)⟩


/-- The bytes of a `pgtype.UUID` always convert. -/
theorem FromBytes_uuid (u : UUID) : FromBytes u.Bytes = .ok u.Bytes := by
  simp [FromBytes, u.size]

/-- Claim C9: for every `Login` call in which `CreateSession` returns an
error, `Login` returns that error with an empty access token, an empty refresh
token and `expires_in` 0; and `Login` returns a non-empty token only with a nil
error, after `CreateSession` succeeded for exactly the refresh secret it
returns. -/
theorem Login_fails_with_session {σ : Type} (s : authService σ) (now : Time)
    (email password userAgent ipAddress : String) (w : σ) :
    (∀ user w1 accessToken jti w2 refreshToken w3 err w4,
      s.userService.AuthenticateUser email password w = (.ok user, w1) →
      s.jwtService.GenerateAccessToken (UUIDString user.ID.Bytes) user.Email w1 =
        (.ok (accessToken, jti), w2) →
      s.jwtService.GenerateRefreshToken w2 = (.ok refreshToken, w3) →
      s.sessionRepository.CreateSession
        (loginSessionParams s now user refreshToken userAgent ipAddress) w3 = (.error err, w4) →
      Login s now email password userAgent ipAddress w = (("", "", 0, some err), w4)) ∧
    (∀ accessToken refreshToken expiresIn err w5,
      Login s now email password userAgent ipAddress w =
        ((accessToken, refreshToken, expiresIn, err), w5) →
      accessToken ≠ "" ∨ refreshToken ≠ "" →
      err = none ∧
      ∃ user w1 jti w2 w3 session,
        s.userService.AuthenticateUser email password w = (.ok user, w1) ∧
        s.jwtService.GenerateAccessToken (UUIDString user.ID.Bytes) user.Email w1 =
          (.ok (accessToken, jti), w2) ∧
        s.jwtService.GenerateRefreshToken w2 = (.ok refreshToken, w3) ∧
        s.sessionRepository.CreateSession
          (loginSessionParams s now user refreshToken userAgent ipAddress) w3 =
            (.ok session, w5)) := by
  constructor
  · intro user w1 accessToken jti w2 refreshToken w3 err w4 h1 h2 h3 h4
    simp only [loginSessionParams] at h4
    simp only [Login, h1, FromBytes_uuid, h2, h3, h4]
  · intro accessToken refreshToken expiresIn err w5 hL hne
    unfold Login at hL
    rcases h1 : s.userService.AuthenticateUser email password w with ⟨r1, w1⟩
    rw [h1] at hL
    cases r1 with
    | error e => simp at hL; obtain ⟨⟨rfl, rfl, -⟩, -⟩ := hL; simp at hne
    | ok user =>
      simp only [FromBytes_uuid] at hL
      rcases h2 : s.jwtService.GenerateAccessToken (UUIDString user.ID.Bytes) user.Email w1
        with ⟨r2, w2⟩
      rw [h2] at hL
      cases r2 with
      | error e => simp at hL; obtain ⟨⟨rfl, rfl, -⟩, -⟩ := hL; simp at hne
      | ok pair =>
        obtain ⟨tok, jti⟩ := pair
        simp only at hL
        rcases h3 : s.jwtService.GenerateRefreshToken w2 with ⟨r3, w3⟩
        rw [h3] at hL
        cases r3 with
        | error e => simp at hL; obtain ⟨⟨rfl, rfl, -⟩, -⟩ := hL; simp at hne
        | ok rt =>
          simp only at hL
          rcases h4 : s.sessionRepository.CreateSession
            (loginSessionParams s now user rt userAgent ipAddress) w3 with ⟨r4, w4⟩
          simp only [loginSessionParams] at h4
          rw [h4] at hL
          cases r4 with
          | error e => simp at hL; obtain ⟨⟨rfl, rfl, -⟩, -⟩ := hL; simp at hne
          | ok session =>
            simp only [Prod.mk.injEq] at hL
            obtain ⟨⟨rfl, rfl, -, rfl⟩, rfl⟩ := hL
            exact ⟨rfl, user, w1, jti, w2, w3, session, rfl, h2, h3, h4⟩


/-- The result of C9 on a store that refuses `CreateSession`, next to the
same login on a store that accepts it. -/
theorem Login_fails_with_session_witness :
    Login (sampleAuthService 0 createFails) 0 "a@b.c" "pw" "agent" "10.0.0.1"
        { sessions := [], blacklist := [] } =
      (("", "", 0, some (.other "connection refused")), { sessions := [], blacklist := [] }) ∧
    (Login (sampleAuthService 0 noFault) 0 "a@b.c" "pw" "agent" "10.0.0.1"
        { sessions := [], blacklist := [] }).1 = ("good", "refresh-1", 900, none) :=
  ⟨(Login_fails_with_session (sampleAuthService 0 createFails) 0 "a@b.c" "pw" "agent" "10.0.0.1"
      { sessions := [], blacklist := [] }).1 _ _ _ _ _ _ _ _ _ rfl rfl rfl rfl,
   by decide⟩

/-- Claim C10, as amended: for every `Logout` call with a non-empty
access-token jti that returns without error, the Blacklist Entry stored for
that jti has `expires_at` equal to the clock reading of the `Logout` call plus
the access TTL the auth service is configured with. -/
theorem Logout_blacklist_expiry (s : authService Store) (clock : Time) (id : UUID)
    (fault : StoreOp → Option Error) (now : Time) (refreshToken accessTokenJTI : String)
    (userID : UUID) (st : Store)
    (hrepo : s.sessionRepository = storeRepository clock id fault)
    (hjti : accessTokenJTI ≠ "")
    (hout : (Logout s now refreshToken accessTokenJTI userID st).1 = none) :
    (Logout s now refreshToken accessTokenJTI userID st).2.blacklist.find?
        (fun e => e.TokenJti == accessTokenJTI) =
      some { TokenJti := accessTokenJTI, UserID := userID,
             Reason := { String := "user logout", Valid := true },
             ExpiresAt := { Time := now + s.accessTokenExpiry, Valid := true } } := by
  unfold Logout at hout ⊢
  rw [hrepo] at hout ⊢
  simp only [storeRepository, execute] at hout ⊢
  cases hd : fault .DeleteSession with
  | some e => simp [hd] at hout
  | none =>
    cases hb : fault .BlacklistToken with
    | some e => simp [hd, hb, hjti] at hout
    | none => simp [hjti, Add]

/-- The entry of C10 for a logout at 100 s. -/
theorem Logout_blacklist_expiry_witness :
    (Logout (sampleAuthService 0 noFault) (100 * Second) "refresh-1" "jti-1" (sampleUUID 1)
        { sessions := [sampleSession], blacklist := [] }).2.blacklist.find?
        (fun e => e.TokenJti == "jti-1") =
      some { TokenJti := "jti-1", UserID := sampleUUID 1,
             Reason := { String := "user logout", Valid := true },
             ExpiresAt := { Time := 100 * Second + (sampleAuthService 0 noFault).accessTokenExpiry,
                            Valid := true } } :=
  Logout_blacklist_expiry (sampleAuthService 0 noFault) 0 (sampleUUID 9) noFault _ _ _ _ _ rfl
    (by decide) (by decide)

/-- Claim C10 fails as stated: a token issued at 0 s with a TTL of fifteen
minutes expires at 900 s; the entry a `Logout` at 100 s stores for its jti,
under the same TTL, expires at 1000 s. -/
theorem Logout_blacklist_expiry_differs_from_token :
    (issuedClaims (NewJWTService [107] (15 * Minute) (60 * Minute)) "jti-1" 0
      (utf8Bytes "user-1") (utf8Bytes "a@b.c")).ID = "jti-1" ∧
    (issuedClaims (NewJWTService [107] (15 * Minute) (60 * Minute)) "jti-1" 0
      (utf8Bytes "user-1") (utf8Bytes "a@b.c")).ExpiresAt = some (900 * Second) ∧
    (sampleAuthService 0 noFault).accessTokenExpiry = 15 * Minute ∧
    (Logout (sampleAuthService 0 noFault) (100 * Second) "refresh-1" "jti-1" (sampleUUID 1)
        { sessions := [sampleSession], blacklist := [] }).2.blacklist.map
        (fun e => (e.TokenJti, e.ExpiresAt.Time)) = [("jti-1", 1000 * Second)] ∧
    (Logout (sampleAuthService 0 noFault) (100 * Second) "refresh-1" "jti-1" (sampleUUID 1)
        { sessions := [sampleSession], blacklist := [] }).2.blacklist.map
        (fun e => some e.ExpiresAt.Time) ≠
      [(issuedClaims (NewJWTService [107] (15 * Minute) (60 * Minute)) "jti-1" 0
        (utf8Bytes "user-1") (utf8Bytes "a@b.c")).ExpiresAt] := by
  decide

/-! ## The token codec, continued -/

/-- Claim C11, as amended: for every token issued by `GenerateAccessToken` of
any service (any secret, any TTL, at any clock reading) for a `user_id` and an
`email` of well-formed UTF-8 text, `ParseAccessToken` returns without error the
claims with the same `UserID`, `Email` and jti; its result does not depend on
the signature segment and it reads no clock; the only error it returns is
`ErrInvalidToken`, and only for a token the parser cannot read: malformed text,
or a header naming no registered signing method. -/
theorem ParseAccessToken_of_issued (P : Primitives) (s : jwtService) (jti : String) (now : Time)
    (userID email : String) :
    (∃ tokenString claims,
      GenerateAccessToken P s jti now (utf8Bytes userID) (utf8Bytes email) =
        .ok (tokenString, jti) ∧
      ParseAccessToken tokenString = .ok claims ∧
      claims.UserID = userID ∧ claims.Email = email ∧ claims.ID = jti) ∧
    (∀ text alg claims sig sig',
      ParseAccessToken (.compact text alg claims sig) =
        ParseAccessToken (.compact text alg claims sig') ∧
      ParseAccessToken (.badSignature text alg claims) =
        ParseAccessToken (.compact text alg claims sig)) ∧
    (∀ tokenString err, ParseAccessToken tokenString = .error err →
      err = .ErrInvalidToken ∧
      (∃ chain, ParseUnverified tokenString = .error chain) ∧
      (tokenString = .malformed ∨
        ∃ text alg claims, GetSigningMethod alg = none ∧
          (tokenString = .badSignature text alg claims ∨
            ∃ sig, tokenString = .compact text alg claims sig))) := by
  refine ⟨⟨_, issuedClaims s jti now (utf8Bytes userID) (utf8Bytes email),
    GenerateAccessToken_eq P s jti now _ _, rfl, jsonText_utf8Bytes userID,
    jsonText_utf8Bytes email, jsonText_utf8Bytes jti⟩,
    fun text alg claims sig sig' => ⟨rfl, rfl⟩, ?_⟩
  intro tokenString err h
  cases tokenString with
  | malformed =>
    simp only [ParseAccessToken, ParseUnverified, Except.error.injEq] at h
    exact ⟨h.symm, ⟨_, rfl⟩, Or.inl rfl⟩
  | compact text alg claims sig =>
    cases hg : GetSigningMethod alg with
    | none =>
      simp only [ParseAccessToken, ParseUnverified, hg, Except.error.injEq] at h
      exact ⟨h.symm, ⟨[.ErrTokenUnverifiable], by simp [ParseUnverified, hg]⟩,
        Or.inr ⟨text, alg, claims, hg, Or.inr ⟨sig, rfl⟩⟩⟩
    | some m => simp [ParseAccessToken, ParseUnverified, hg] at h
  | badSignature text alg claims =>
    cases hg : GetSigningMethod alg with
    | none =>
      simp only [ParseAccessToken, ParseUnverified, hg, Except.error.injEq] at h
      exact ⟨h.symm, ⟨[.ErrTokenUnverifiable], by simp [ParseUnverified, hg]⟩,
        Or.inr ⟨text, alg, claims, hg, Or.inl rfl⟩⟩
    | some m => simp [ParseAccessToken, ParseUnverified, hg] at h

/-- The result of C11 for the one-millisecond service of the repository's
test, whose token is expired as soon as issued, next to a malformed token. -/
theorem ParseAccessToken_of_issued_witness :
    (∀ P : Primitives, ∃ tokenString claims,
      GenerateAccessToken P (NewJWTService [107] Millisecond (60 * Minute)) "jti-1" 1500000000
        (utf8Bytes "123") (utf8Bytes "test@example.com") = .ok (tokenString, "jti-1") ∧
      ParseAccessToken tokenString = .ok claims ∧
      claims.UserID = "123" ∧ claims.Email = "test@example.com" ∧ claims.ID = "jti-1") ∧
    ParseAccessToken .malformed = .error .ErrInvalidToken :=
  ⟨fun P => (ParseAccessToken_of_issued P _ _ _ _ _).1, rfl⟩

/-- Claim C11 fails as stated: the Go string `u` followed by the byte `0xFF`
is a possible `user_id`; the token issued for it parses without error, and the
`UserID` returned is `u` followed by U+FFFD, whose bytes are not those of the
`user_id` the token was issued for, as the bytes of no text are. -/
theorem ParseAccessToken_of_issued_replaces_bytes :
    (∀ t : String, utf8Bytes t ≠ [0x75, 0xFF]) ∧
    ∀ P : Primitives, ∃ tokenString claims,
      GenerateAccessToken P (NewJWTService [107] (15 * Minute) (60 * Minute)) "jti-1" 0
        [0x75, 0xFF] (utf8Bytes "test@example.com") = .ok (tokenString, "jti-1") ∧
      ParseAccessToken tokenString = .ok claims ∧
      claims.UserID = "u\uFFFD" ∧
      utf8Bytes claims.UserID = [0x75, 0xEF, 0xBF, 0xBD] ∧
      utf8Bytes claims.UserID ≠ [0x75, 0xFF] :=
  ⟨fun t ht => absurd (congrArg utf8Bytes ((jsonText_utf8Bytes t).symm.trans
      (congrArg jsonText ht)) |>.symm.trans ht) (by decide),
   fun P => ⟨_, _, GenerateAccessToken_eq P _ _ _ _ _, rfl, by decide, by decide, by decide⟩⟩

/-- An access TTL of a second or more moves the truncated instant forward. -/
theorem NewNumericDate_mono_second (t : Time) (d : Duration) (hd : Second ≤ d) :
    NewNumericDate t < NewNumericDate (Add t d) := by
  unfold NewNumericDate Truncate Add Second at *
  simp only [show ¬ ((1000000000 : Int) ≤ 0) by decide, if_false]
  unfold Time Duration at *
  omega

/-- Claim C12, as amended: every access token produced by `GenerateAccessToken`
of a service whose access TTL is at least one second satisfies
`expires_at > issued_at`, where the token's claims carry `issued_at` =
`not_before` = now and `expires_at` = now + access TTL, each in whole
seconds. -/
theorem issued_token_expires_after_issue (P : Primitives) (s : jwtService) (jti : String)
    (now : Time) (userID email : List Nat) (httl : Second ≤ s.accessTokenExpiry) :
    ∃ text sig claims iat exp,
      GenerateAccessToken P s jti now userID email =
        .ok (.compact text "HS256" claims sig, jti) ∧
      claims.IssuedAt = some iat ∧ claims.NotBefore = some iat ∧ claims.ExpiresAt = some exp ∧
      iat = NewNumericDate now ∧ exp = NewNumericDate (Add now s.accessTokenExpiry) ∧
      iat < exp :=
  ⟨_, _, issuedClaims s jti now userID email, _, _,
    GenerateAccessToken_eq P s jti now userID email, rfl, rfl, rfl, rfl, rfl,
    NewNumericDate_mono_second now s.accessTokenExpiry httl⟩

/-- The invariant of C12 for the default TTL of the configuration, 168 hours,
at 1.5 s. -/
theorem issued_token_expires_after_issue_witness :
    Second ≤ (NewJWTService [107] (168 * (60 * Minute)) (720 * (60 * Minute))).accessTokenExpiry ∧
    ∀ P : Primitives, ∃ text sig claims iat exp,
      GenerateAccessToken P (NewJWTService [107] (168 * (60 * Minute)) (720 * (60 * Minute)))
        "jti-1" 1500000000 (utf8Bytes "123") (utf8Bytes "test@example.com") =
        .ok (.compact text "HS256" claims sig, "jti-1") ∧
      claims.IssuedAt = some iat ∧ claims.NotBefore = some iat ∧ claims.ExpiresAt = some exp ∧
      iat = NewNumericDate 1500000000 ∧
      exp = NewNumericDate (Add 1500000000
        (NewJWTService [107] (168 * (60 * Minute)) (720 * (60 * Minute))).accessTokenExpiry) ∧
      iat < exp :=
  ⟨by decide, fun P => issued_token_expires_after_issue P _ _ _ _ _ (by decide)⟩

/-- Claim C12 fails as stated: a service can be constructed with a TTL of one
millisecond, and its token issued at 1.5 s carries `issued_at` = `expires_at` =
1 s; with a TTL of zero the two are equal at every clock reading. -/
theorem issued_token_expiry_equals_issue :
    (∀ P : Primitives, ∃ text sig claims,
      GenerateAccessToken P (NewJWTService [107] Millisecond (60 * Minute)) "jti-1" 1500000000
        (utf8Bytes "123") (utf8Bytes "test@example.com") =
        .ok (.compact text "HS256" claims sig, "jti-1") ∧
      claims.IssuedAt = some 1000000000 ∧ claims.ExpiresAt = some 1000000000) ∧
    (∀ (P : Primitives) (now : Time), ∃ text sig claims,
      GenerateAccessToken P (NewJWTService [107] 0 (60 * Minute)) "jti-1" now
        (utf8Bytes "123") (utf8Bytes "test@example.com") =
        .ok (.compact text "HS256" claims sig, "jti-1") ∧
      claims.IssuedAt = claims.ExpiresAt) := by
  refine ⟨fun P => ⟨_, _, _, GenerateAccessToken_eq P _ _ _ _ _, ?_, ?_⟩,
    fun P now => ⟨_, _, _, GenerateAccessToken_eq P _ _ _ _ _, ?_⟩⟩
  · decide
  · decide
  · simp [issuedClaims, writtenClaims, WrittenClaims.decoded, NewJWTService, Add]

/-! ## The auth orchestrator, continued -/

/-- Claim C13, as amended: in `Login`, `Logout`, `LogoutAllSessions`,
`RevokeToken` and `CleanupExpiredSessions`, and for the token-codec call of
`RefreshToken`, whenever a collaborator call whose failure aborts the operation
returns an error `e`, the operation returns exactly `e`; when the session
lookup of `RefreshToken` returns an error, the operation returns
`ErrSessionNotFound` in its place. -/
theorem orchestrator_error_returned {σ : Type} (s : authService σ) :
    (∀ now email password userAgent ipAddress w e w1,
      s.userService.AuthenticateUser email password w = (.error e, w1) →
      Login s now email password userAgent ipAddress w = (("", "", 0, some e), w1)) ∧
    (∀ now email password userAgent ipAddress w user w1 e w2,
      s.userService.AuthenticateUser email password w = (.ok user, w1) →
      s.jwtService.GenerateAccessToken (UUIDString user.ID.Bytes) user.Email w1 =
        (.error e, w2) →
      Login s now email password userAgent ipAddress w = (("", "", 0, some e), w2)) ∧
    (∀ now email password userAgent ipAddress w user w1 tok w2 e w3,
      s.userService.AuthenticateUser email password w = (.ok user, w1) →
      s.jwtService.GenerateAccessToken (UUIDString user.ID.Bytes) user.Email w1 =
        (.ok tok, w2) →
      s.jwtService.GenerateRefreshToken w2 = (.error e, w3) →
      Login s now email password userAgent ipAddress w = (("", "", 0, some e), w3)) ∧
    (∀ now email password userAgent ipAddress w user w1 tok w2 refreshToken w3 e w4,
      s.userService.AuthenticateUser email password w = (.ok user, w1) →
      s.jwtService.GenerateAccessToken (UUIDString user.ID.Bytes) user.Email w1 =
        (.ok tok, w2) →
      s.jwtService.GenerateRefreshToken w2 = (.ok refreshToken, w3) →
      s.sessionRepository.CreateSession
        (loginSessionParams s now user refreshToken userAgent ipAddress) w3 = (.error e, w4) →
      Login s now email password userAgent ipAddress w = (("", "", 0, some e), w4)) ∧
    (∀ refreshToken userAgent ipAddress w e w1,
      s.sessionRepository.GetSessionByRefreshTokenHash refreshToken w = (.error e, w1) →
      RefreshToken s refreshToken userAgent ipAddress w =
        (("", 0, some .ErrSessionNotFound), w1)) ∧
    (∀ refreshToken userAgent ipAddress w session w1 r w2 e w3,
      s.sessionRepository.GetSessionByRefreshTokenHash refreshToken w = (.ok session, w1) →
      s.sessionRepository.UpdateSessionLastUsed session.ID w1 = (r, w2) →
      s.jwtService.GenerateAccessToken (UUIDString session.UserID.Bytes) "" w2 =
        (.error e, w3) →
      RefreshToken s refreshToken userAgent ipAddress w = (("", 0, some e), w3)) ∧
    (∀ now refreshToken accessTokenJTI userID w e w1,
      s.sessionRepository.DeleteSession refreshToken w = (some e, w1) →
      Logout s now refreshToken accessTokenJTI userID w = (some e, w1)) ∧
    (∀ now refreshToken accessTokenJTI userID w w1 e w2,
      s.sessionRepository.DeleteSession refreshToken w = (none, w1) →
      accessTokenJTI ≠ "" →
      s.sessionRepository.BlacklistToken
        { TokenJti := accessTokenJTI, UserID := userID,
          ExpiresAt := { Time := Add now s.accessTokenExpiry, Valid := true },
          Reason := { String := "user logout", Valid := true } } w1 = (some e, w2) →
      Logout s now refreshToken accessTokenJTI userID w = (some e, w2)) ∧
    (∀ userID w e w1,
      s.sessionRepository.DeleteAllUserSessions userID w = (some e, w1) →
      LogoutAllSessions s userID w = (some e, w1)) ∧
    (∀ now tokenJTI userID reason w e w1,
      s.sessionRepository.BlacklistToken
        { TokenJti := tokenJTI, UserID := userID,
          ExpiresAt := { Time := Add now s.accessTokenExpiry, Valid := true },
          Reason := { String := reason, Valid := reason != "" } } w = (some e, w1) →
      RevokeToken s now tokenJTI userID reason w = (some e, w1)) ∧
    (∀ w e w1,
      s.sessionRepository.DeleteExpiredSessions w = (some e, w1) →
      CleanupExpiredSessions s w = (some e, w1)) ∧
    (∀ w w1 e w2,
      s.sessionRepository.DeleteExpiredSessions w = (none, w1) →
      s.sessionRepository.DeleteExpiredBlacklistedTokens w1 = (some e, w2) →
      CleanupExpiredSessions s w = (some e, w2)) := by
  refine ⟨?_, ?_, ?_, ?_, ?_, ?_, ?_, ?_, ?_, ?_, ?_, ?_⟩
  · intro now email password userAgent ipAddress w e w1 h1
    simp only [Login, h1]
  · intro now email password userAgent ipAddress w user w1 e w2 h1 h2
    simp only [Login, h1, FromBytes_uuid, h2]
  · intro now email password userAgent ipAddress w user w1 tok w2 e w3 h1 h2 h3
    obtain ⟨accessToken, jti⟩ := tok
    simp only [Login, h1, FromBytes_uuid, h2, h3]
  · intro now email password userAgent ipAddress w user w1 tok w2 refreshToken w3 e w4 h1 h2 h3 h4
    obtain ⟨accessToken, jti⟩ := tok
    simp only [loginSessionParams] at h4
    simp only [Login, h1, FromBytes_uuid, h2, h3, h4]
  · intro refreshToken userAgent ipAddress w e w1 h1
    simp only [RefreshToken, h1]
  · intro refreshToken userAgent ipAddress w session w1 r w2 e w3 h1 h2 h3
    simp only [RefreshToken, h1, h2, FromBytes_uuid, h3]
  · intro now refreshToken accessTokenJTI userID w e w1 h1
    simp only [Logout, h1]
  · intro now refreshToken accessTokenJTI userID w w1 e w2 h1 hj h2
    simp [Logout, h1, hj, h2]
  · intro userID w e w1 h1
    simp only [LogoutAllSessions, h1]
  · intro now tokenJTI userID reason w e w1 h1
    simp only [RevokeToken, h1]
  · intro w e w1 h1
    simp only [CleanupExpiredSessions, h1]
  · intro w w1 e w2 h1 h2
    simp only [CleanupExpiredSessions, h1, h2]

/-- The propagation of C13 evaluated: a wrong password is returned as the
user service reports it. -/
theorem orchestrator_error_returned_witness :
    Login (sampleAuthService 0 noFault) 0 "a@b.c" "wrong" "agent" "10.0.0.1"
        { sessions := [], blacklist := [] } =
      (("", "", 0, some (.other "invalid password")), { sessions := [], blacklist := [] }) :=
  (orchestrator_error_returned (sampleAuthService 0 noFault)).1 0 "a@b.c" "wrong" "agent"
    "10.0.0.1" { sessions := [], blacklist := [] } _ _ rfl

/-- Claim C13 fails as stated: when the session lookup of `RefreshToken`
fails with a storage error, the operation returns `ErrSessionNotFound`, not the
error of the lookup. -/
theorem RefreshToken_replaces_lookup_error :
    (sampleAuthService 0 lookupFails).sessionRepository.GetSessionByRefreshTokenHash "refresh-1"
        { sessions := [sampleSession], blacklist := [] } =
      (.error (.other "connection refused"), { sessions := [sampleSession], blacklist := [] }) ∧
    RefreshToken (sampleAuthService 0 lookupFails) "refresh-1" "" ""
        { sessions := [sampleSession], blacklist := [] } =
      (("", 0, some .ErrSessionNotFound), { sessions := [sampleSession], blacklist := [] }) ∧
    Error.ErrSessionNotFound ≠ Error.other "connection refused" :=
  ⟨rfl, rfl, by decide⟩

/-! ## The refresh secret -/

/-- Every six-bit value has a character of the alphabet, which decodes to it
and is neither the padding nor a line break. -/
theorem encodeChar_spec (v : Nat) (hv : v < 64) :
    decodeChar (encodeChar v) = some v ∧ encodeChar v ≠ '=' ∧ encodeChar v ∈ encodeURL ∧
      encodeChar v ≠ '\r' ∧ encodeChar v ≠ '\n' := by
  have h : ∀ w : Fin 64, decodeChar (encodeChar w.val) = some w.val ∧ encodeChar w.val ≠ '=' ∧
      encodeChar w.val ∈ encodeURL ∧ encodeChar w.val ≠ '\r' ∧ encodeChar w.val ≠ '\n' := by
    decide
  exact h ⟨v, hv⟩

/-- The encoding of `n` bytes has `4 * ⌈n / 3⌉` characters. -/
theorem Encode_length (b : List Nat) : (Encode b).length = 4 * ((b.length + 2) / 3) := by
  induction b using Encode.induct with
  | case1 b0 b1 b2 rest ih =>
    simp only [Encode, List.length_cons, ih]
    omega
  | case2 b0 b1 => simp [Encode]
  | case3 b0 => simp [Encode]
  | case4 => simp [Encode]

/-- The encoding uses the alphabet and the padding only, and no line break. -/
theorem Encode_chars (b : List Nat) :
    ∀ c ∈ Encode b, (c ∈ encodeURL ∨ c = '=') ∧ c ≠ '\r' ∧ c ≠ '\n' := by
  have hc : ∀ v, (encodeChar (v % 64) ∈ encodeURL ∨ encodeChar (v % 64) = '=') ∧
      encodeChar (v % 64) ≠ '\r' ∧ encodeChar (v % 64) ≠ '\n' := fun v =>
    have h := encodeChar_spec (v % 64) (Nat.mod_lt _ (by decide))
    ⟨Or.inl h.2.2.1, h.2.2.2.1, h.2.2.2.2⟩
  have hp : (('=' : Char) ∈ encodeURL ∨ ('=' : Char) = '=') ∧ ('=' : Char) ≠ '\r' ∧
      ('=' : Char) ≠ '\n' := ⟨Or.inr rfl, by decide, by decide⟩
  induction b using Encode.induct with
  | case1 b0 b1 b2 rest ih =>
    intro c hmem
    simp only [Encode, List.mem_cons] at hmem
    rcases hmem with rfl | rfl | rfl | rfl | hmem
    · exact hc _
    · exact hc _
    · exact hc _
    · exact hc _
    · exact ih c hmem
  | case2 b0 b1 =>
    intro c hmem
    simp only [Encode, List.mem_cons, List.not_mem_nil, or_false] at hmem
    rcases hmem with rfl | rfl | rfl | rfl
    · exact hc _
    · exact hc _
    · exact hc _
    · exact hp
  | case3 b0 =>
    intro c hmem
    simp only [Encode, List.mem_cons, List.not_mem_nil, or_false] at hmem
    rcases hmem with rfl | rfl | rfl | rfl
    · exact hc _
    · exact hc _
    · exact hp
    · exact hp
  | case4 => intro c hmem; simp [Encode] at hmem

/-- Decoding undoes encoding on bytes. -/
theorem Decode_Encode (b : List Nat) (hb : ∀ x ∈ b, x < 256) : Decode (Encode b) = .ok b := by
  have hd : ∀ v, decodeChar (encodeChar (v % 64)) = some (v % 64) := fun v =>
    (encodeChar_spec (v % 64) (Nat.mod_lt _ (by decide))).1
  have hne : ∀ v, encodeChar (v % 64) ≠ '=' := fun v =>
    (encodeChar_spec (v % 64) (Nat.mod_lt _ (by decide))).2.1
  induction b using Encode.induct with
  | case1 b0 b1 b2 rest ih =>
    have h0 : b0 < 256 := hb b0 (by simp)
    have h1 : b1 < 256 := hb b1 (by simp)
    have h2 : b2 < 256 := hb b2 (by simp)
    have ih := ih (fun x hx => hb x (by simp [hx]))
    simp only [Encode, Decode, hne, and_false, if_false, hd, ih]
    congr 1
    refine List.cons_eq_cons.mpr ⟨?_, List.cons_eq_cons.mpr ⟨?_, List.cons_eq_cons.mpr ⟨?_, rfl⟩⟩⟩
    all_goals omega
  | case2 b0 b1 =>
    have h0 : b0 < 256 := hb b0 (by simp)
    have h1 : b1 < 256 := hb b1 (by simp)
    simp only [Encode, Decode, hne, and_self, if_true, if_false, hd]
    congr 1
    refine List.cons_eq_cons.mpr ⟨?_, List.cons_eq_cons.mpr ⟨?_, rfl⟩⟩
    all_goals omega
  | case3 b0 =>
    have h0 : b0 < 256 := hb b0 (by simp)
    simp only [Encode, Decode, and_self, if_true, hd]
    congr 1
    refine List.cons_eq_cons.mpr ⟨?_, rfl⟩
    omega
  | case4 => simp [Encode, Decode]

/-- The encoding read as a string decodes to the bytes. -/
theorem DecodeString_EncodeToString (b : List Nat) (hb : ∀ x ∈ b, x < 256) :
    DecodeString (EncodeToString b) = .ok b := by
  have hf : (Encode b).filter (fun c => c != '\r' && c != '\n') = Encode b := by
    rw [List.filter_eq_self]
    intro c hc
    have h := Encode_chars b c hc
    simp [h.2.1, h.2.2]
  simp only [DecodeString, EncodeToString, hf]
  exact Decode_Encode b hb

/-- Claim C14: whenever the random source succeeds, `GenerateRefreshToken`
returns the URL-safe base64 encoding of the 32 random bytes: a string of
length 44, hence longer than 40, over the URL-safe alphabet and the padding
character, which decodes back to those 32 bytes; so two draws that give the
same secret gave the same bytes. -/
theorem GenerateRefreshToken_encodes (s : jwtService) (read : Nat → Except Error (List Nat))
    (b : List Nat) (hread : read 32 = .ok b) (hlen : b.length = 32)
    (hbytes : ∀ x ∈ b, x < 256) :
    ∃ token,
      GenerateRefreshToken s read = .ok token ∧
      token = EncodeToString b ∧
      token.length = 44 ∧ 40 < token.length ∧
      (∀ c ∈ token.data, c ∈ encodeURL ∨ c = '=') ∧
      DecodeString token = .ok b ∧
      (∀ (s2 : jwtService) (read2 : Nat → Except Error (List Nat)) (b2 : List Nat),
        read2 32 = .ok b2 → b2.length = 32 → (∀ x ∈ b2, x < 256) →
        GenerateRefreshToken s2 read2 = .ok token → b2 = b) := by
  have hl : (EncodeToString b).length = 44 := by
    show (Encode b).length = 44
    rw [Encode_length, hlen]
  refine ⟨EncodeToString b, by simp [GenerateRefreshToken, hread], rfl, hl, by omega,
    fun c hc => (Encode_chars b c hc).1, DecodeString_EncodeToString b hbytes, ?_⟩
  intro s2 read2 b2 hread2 _ hbytes2 hgen
  simp only [GenerateRefreshToken, hread2, Except.ok.injEq] at hgen
  have h2 := DecodeString_EncodeToString b2 hbytes2
  rw [hgen, DecodeString_EncodeToString b hbytes] at h2
  exact (Except.ok.inj h2).symm

/-- The secret of C14 for the bytes 0 to 31. -/
theorem GenerateRefreshToken_encodes_witness :
    ∃ token,
      GenerateRefreshToken (NewJWTService [107] (15 * Minute) (60 * Minute))
        (fun n => .ok (List.range n)) = .ok token ∧
      token = "AAECAwQFBgcICQoLDA0ODxAREhMUFRYXGBkaGxwdHh8=" ∧
      token.length = 44 ∧
      DecodeString token = .ok (List.range 32) := by
  obtain ⟨token, h1, h2, h3, -, -, h6, -⟩ :=
    GenerateRefreshToken_encodes (NewJWTService [107] (15 * Minute) (60 * Minute))
      (fun n => .ok (List.range n)) (List.range 32) rfl (by decide) (by decide)
  exact ⟨token, h1, h2.trans (by decide), h3, h6⟩

/-! ## The request authenticator, continued -/

/-- The two middlewares side by side: `ParseAuth` does what `RequireAuth` does
when that one serves, and forwards the request unchanged when it rejects; both
leave the same world. -/
theorem ParseAuth_eq {σ : Type} (Scan : String → Except Error UUID)
    (jwtService : JWTService σ) (sessionRepo : SessionRepository σ) (r : Request) (w : σ) :
    ParseAuth Scan jwtService sessionRepo r w =
      if served (RequireAuth Scan jwtService sessionRepo r w).1 ≠ [] then
        RequireAuth Scan jwtService sessionRepo r w
      else ([.ServeHTTP r], (RequireAuth Scan jwtService sessionRepo r w).2) := by
  unfold ParseAuth RequireAuth
  simp only
  repeat' split
  all_goals simp_all [served]

/-- Claim C15: for every request and every behaviour of the token codec and
the session store, `ParseAuth` hands the downstream handler a context with
`(user_id, jti)` attached exactly when `RequireAuth` invokes the handler for
the same request, and then both hand over the same request with the same user
id and jti; otherwise `ParseAuth` forwards the request as it came, with nothing
attached. -/
theorem ParseAuth_attaches_iff {σ : Type} (Scan : String → Except Error UUID)
    (jwtService : JWTService σ) (sessionRepo : SessionRepository σ) (r : Request) (w : σ) :
    (served (RequireAuth Scan jwtService sessionRepo r w).1 ≠ [] →
      (ParseAuth Scan jwtService sessionRepo r w).1 =
        (RequireAuth Scan jwtService sessionRepo r w).1 ∧
      ∃ userID jti,
        (ParseAuth Scan jwtService sessionRepo r w).1 =
          [.ServeHTTP { r with ctx := SetJTI (SetUserID r.ctx userID) jti }]) ∧
    (served (RequireAuth Scan jwtService sessionRepo r w).1 = [] →
      (ParseAuth Scan jwtService sessionRepo r w).1 = [.ServeHTTP r]) ∧
    (r.ctx.userID = none → r.ctx.jti = none →
      ((∃ r2 ∈ served (ParseAuth Scan jwtService sessionRepo r w).1,
          r2.ctx.userID ≠ none ∧ r2.ctx.jti ≠ none) ↔
        served (RequireAuth Scan jwtService sessionRepo r w).1 ≠ [])) := by
  have heq := ParseAuth_eq Scan jwtService sessionRepo r w
  rcases RequireAuth_cases Scan jwtService sessionRepo r w with
    ⟨token, claims, w1, w2, userID, -, -, -, -, hout⟩ | ⟨-, status, message, hout⟩
  · have hs : served (RequireAuth Scan jwtService sessionRepo r w).1 ≠ [] := by
      rw [hout]; simp [served]
    rw [if_pos hs] at heq
    refine ⟨fun _ => ⟨by rw [heq], userID, claims.ID, by rw [heq, hout]⟩,
      fun h => absurd h hs, fun _ _ => ⟨fun _ => hs, fun _ => ?_⟩⟩
    rw [heq, hout]
    simp [served, SetJTI, SetUserID]
  · have hs : served (RequireAuth Scan jwtService sessionRepo r w).1 = [] := by
      rw [hout]; simp [served]
    rw [if_neg (by simp [hs])] at heq
    refine ⟨fun h => absurd hs h, fun _ => by rw [heq], fun hu _ => ⟨?_, fun h => absurd hs h⟩⟩
    rw [heq]
    simp [served, hu]

/-- The two middlewares of C15 on the token `good`, which both accept, and on
another token, which `RequireAuth` rejects and `ParseAuth` forwards
unchanged. -/
theorem ParseAuth_attaches_iff_witness :
    (ParseAuth sampleScan sampleJWTService (storeRepository 0 (sampleUUID 9) noFault)
        { Authorization := "Bearer good", ctx := { userID := none, jti := none } }
        { sessions := [], blacklist := [] }).1 =
      [.ServeHTTP { Authorization := "Bearer good",
                    ctx := { userID := some (sampleUUID 1), jti := some "jti-1" } }] ∧
    (ParseAuth sampleScan sampleJWTService (storeRepository 0 (sampleUUID 9) noFault)
        { Authorization := "Bearer bad", ctx := { userID := none, jti := none } }
        { sessions := [], blacklist := [] }).1 =
      [.ServeHTTP { Authorization := "Bearer bad", ctx := { userID := none, jti := none } }] :=
  ⟨by decide,
   (ParseAuth_attaches_iff sampleScan sampleJWTService (storeRepository 0 (sampleUUID 9) noFault)
      { Authorization := "Bearer bad", ctx := { userID := none, jti := none } }
      { sessions := [], blacklist := [] }).2.1 (by decide)⟩

/-! ## The blacklist entry and the token it revokes -/

/-- The first element found stays the first found after a filter it passes. -/
theorem find_filter_of_pos {α : Type} (p q : α → Bool) (l : List α) (a : α)
    (h : l.find? p = some a) (hq : q a = true) : (l.filter q).find? p = some a := by
  induction l with
  | nil => simp at h
  | cons x xs ih =>
    by_cases hp : p x = true
    · have hx : x = a := by simpa [List.find?, hp] using h
      subst hx
      simp [List.filter, hq, List.find?, hp]
    · have hp' : p x = false := by simpa using hp
      have h' : xs.find? p = some a := by simpa [List.find?, hp'] using h
      by_cases hqx : q x = true
      · simp [List.filter, hqx, List.find?, hp', ih h']
      · have hqx' : q x = false := by simpa using hqx
        simp [List.filter, hqx', ih h']

/-- Writing an entry that expires no earlier than `exp` keeps a jti blacklisted
until `exp`, whether the entry is for that jti or for another. -/
theorem blacklistedUntil_write (st : Store) (jti : String) (exp : Time) (e : BlacklistEntry)
    (sessions : List Session)
    (h : blacklistedUntil st jti exp) (he : exp ≤ e.ExpiresAt.Time) :
    blacklistedUntil
      { sessions := sessions,
        blacklist := e :: st.blacklist.filter (fun x => x.TokenJti != e.TokenJti) } jti exp := by
  obtain ⟨entry, hfind, hle⟩ := h
  by_cases hj : e.TokenJti = jti
  · exact ⟨e, by simp [List.find?, hj], he⟩
  · refine ⟨entry, ?_, hle⟩
    have hentry : entry.TokenJti = jti := by simpa using List.find?_some hfind
    have hq : (fun x : BlacklistEntry => x.TokenJti != e.TokenJti) entry = true := by
      simp only [bne_iff_ne, ne_eq, hentry]
      exact fun h => hj h.symm
    have := find_filter_of_pos (fun x : BlacklistEntry => x.TokenJti == jti)
      (fun x : BlacklistEntry => x.TokenJti != e.TokenJti) _ _ hfind hq
    have hne : ¬ ((fun x : BlacklistEntry => x.TokenJti == jti) e = true) := by simpa using hj
    exact (List.find?_cons_of_neg (p := fun x : BlacklistEntry => x.TokenJti == jti) _ hne).trans
      this

/-- A sweep by a store whose clock is before `exp` keeps a jti blacklisted
until `exp`. -/
theorem blacklistedUntil_sweep (st : Store) (jti : String) (exp clock : Time)
    (sessions : List Session)
    (h : blacklistedUntil st jti exp) (hc : clock < exp) :
    blacklistedUntil
      { sessions := sessions,
        blacklist := st.blacklist.filter (fun x => !decide (x.ExpiresAt.Time < clock)) }
      jti exp := by
  obtain ⟨entry, hfind, hle⟩ := h
  refine ⟨entry, find_filter_of_pos (fun x : BlacklistEntry => x.TokenJti == jti)
    (fun x : BlacklistEntry => !decide (x.ExpiresAt.Time < clock)) _ _ hfind ?_, hle⟩
  have : ¬ entry.ExpiresAt.Time < clock := by
    unfold Time at *
    omega
  simp [this]

/-- A state with the same blacklist blacklists the same. -/
theorem blacklistedUntil_congr (st st' : Store) (jti : String) (exp : Time)
    (h : blacklistedUntil st jti exp) (hb : st'.blacklist = st.blacklist) :
    blacklistedUntil st' jti exp := by
  obtain ⟨entry, hfind, hle⟩ := h
  exact ⟨entry, by rw [hb]; exact hfind, hle⟩

/-- The blacklist is as it was after `Login`, when the user service and the
token service do not write to the session store. -/
theorem Login_blacklist (s : authService Store) (step : Step) (now : Time)
    (email password userAgent ipAddress : String) (st : Store)
    (hus : ∀ e p w, (s.userService.AuthenticateUser e p w).2 = w)
    (hja : ∀ a b w, (s.jwtService.GenerateAccessToken a b w).2 = w)
    (hjr : ∀ w, (s.jwtService.GenerateRefreshToken w).2 = w) :
    (Login (authServiceAt s step) now email password userAgent ipAddress st).2.blacklist =
      st.blacklist := by
  unfold Login
  simp only [authServiceAt]
  rcases h1 : s.userService.AuthenticateUser email password st with ⟨r1, w1⟩
  obtain rfl : w1 = st := by simpa [h1] using hus email password st
  cases r1 with
  | error e => rfl
  | ok user =>
    simp only
    cases h2 : FromBytes user.ID.Bytes with
    | error e => rfl
    | ok u =>
      simp only
      rcases h3 : s.jwtService.GenerateAccessToken (UUIDString u) user.Email w1 with ⟨r3, w3⟩
      obtain rfl : w3 = w1 := by simpa [h3] using hja (UUIDString u) user.Email w1
      cases r3 with
      | error e => rfl
      | ok pair =>
        obtain ⟨accessToken, j⟩ := pair
        simp only
        rcases h4 : s.jwtService.GenerateRefreshToken w3 with ⟨r4, w4⟩
        obtain rfl : w4 = w3 := by simpa [h4] using hjr w3
        cases r4 with
        | error e => rfl
        | ok refreshToken =>
          simp only [storeRepository]
          cases step.fault .CreateSession <;> rfl

/-- The blacklist is as it was after `RefreshToken`, when the token service
does not write to the session store. -/
theorem RefreshToken_blacklist (s : authService Store) (step : Step)
    (refreshToken userAgent ipAddress : String) (st : Store)
    (hja : ∀ a b w, (s.jwtService.GenerateAccessToken a b w).2 = w) :
    (RefreshToken (authServiceAt s step) refreshToken userAgent ipAddress st).2.blacklist =
      st.blacklist := by
  unfold RefreshToken
  simp only [authServiceAt, storeRepository, execute]
  cases step.fault .GetSessionByRefreshTokenHash with
  | some e => rfl
  | none =>
    simp only
    cases st.sessions.find? (fun x => x.RefreshTokenHash == refreshToken) with
    | none => rfl
    | some session =>
      simp only
      cases h2 : FromBytes session.UserID.Bytes with
      | error e => cases step.fault .UpdateSessionLastUsed <;> rfl
      | ok u =>
        cases step.fault .UpdateSessionLastUsed with
        | some e =>
          simp only
          rcases h3 : s.jwtService.GenerateAccessToken (UUIDString u) "" st with ⟨r3, w3⟩
          obtain rfl : w3 = st := by simpa [h3] using hja (UUIDString u) "" st
          cases r3 <;> rfl
        | none =>
          simp only
          rcases h3 : s.jwtService.GenerateAccessToken (UUIDString u) ""
            { st with sessions := st.sessions.map (fun x =>
                if x.ID = session.ID then
                  { x with LastUsedAt := { Time := step.clock, Valid := true } }
                else x) } with ⟨r3, w3⟩
          have hw := hja (UUIDString u) "" { st with sessions := st.sessions.map (fun x =>
                if x.ID = session.ID then
                  { x with LastUsedAt := { Time := step.clock, Valid := true } }
                else x) }
          rw [h3] at hw
          simp only at hw
          subst hw
          cases r3 <;> rfl

/-- Each call of the auth service that takes its clock reading at or after `t`,
answered by a store whose clock is before `exp`, keeps a jti blacklisted until
`exp`, when `exp` is at most `t` plus the access TTL. -/
theorem blacklistedUntil_step (s : authService Store) (step : Step) (st : Store)
    (jti : String) (exp t : Time)
    (hus : ∀ e p w, (s.userService.AuthenticateUser e p w).2 = w)
    (hja : ∀ a b w, (s.jwtService.GenerateAccessToken a b w).2 = w)
    (hjr : ∀ w, (s.jwtService.GenerateRefreshToken w).2 = w)
    (hle : exp ≤ t + s.accessTokenExpiry)
    (hclock : step.clock < exp) (hnow : ∀ now ∈ step.call.writeTime, t ≤ now)
    (h : blacklistedUntil st jti exp) : blacklistedUntil (step.run s st) jti exp := by
  obtain ⟨call, clock, id, fault⟩ := step
  cases call with
  | Login now email password userAgent ipAddress =>
    exact blacklistedUntil_congr _ _ _ _ h (Login_blacklist s _ now _ _ _ _ st hus hja hjr)
  | RefreshToken refreshToken userAgent ipAddress =>
    exact blacklistedUntil_congr _ _ _ _ h (RefreshToken_blacklist s _ _ _ _ st hja)
  | Logout now refreshToken accessTokenJTI userID =>
    have hn : t ≤ now := hnow now rfl
    simp only [Step.run, Logout, authServiceAt, storeRepository, execute]
    cases fault .DeleteSession with
    | some e => exact h
    | none =>
      by_cases hj : accessTokenJTI = ""
      · simp only [hj]
        exact blacklistedUntil_congr _ _ _ _ h rfl
      · have hj' : (accessTokenJTI != "") = true := by simpa using hj
        simp only [hj', if_true]
        cases fault .BlacklistToken with
        | some e => exact blacklistedUntil_congr _ _ _ _ h rfl
        | none =>
          refine blacklistedUntil_write
            { sessions := st.sessions.filter (fun x => x.RefreshTokenHash != refreshToken),
              blacklist := st.blacklist } jti exp
            { TokenJti := accessTokenJTI, UserID := userID,
              Reason := { String := "user logout", Valid := true },
              ExpiresAt := { Time := Add now s.accessTokenExpiry, Valid := true } } _
            (blacklistedUntil_congr _ _ _ _ h rfl) ?_
          show exp ≤ now + s.accessTokenExpiry
          unfold Time Duration at *
          omega
  | LogoutAllSessions userID =>
    simp only [Step.run, LogoutAllSessions, authServiceAt, storeRepository, execute]
    cases fault .DeleteAllUserSessions with
    | some e => exact h
    | none => exact blacklistedUntil_congr _ _ _ _ h rfl
  | RevokeToken now tokenJTI userID reason =>
    have hn : t ≤ now := hnow now rfl
    simp only [Step.run, RevokeToken, authServiceAt, storeRepository, execute]
    cases fault .BlacklistToken with
    | some e => exact h
    | none =>
      refine blacklistedUntil_write st jti exp
        { TokenJti := tokenJTI, UserID := userID,
          Reason := { String := reason, Valid := reason != "" },
          ExpiresAt := { Time := Add now s.accessTokenExpiry, Valid := true } } _ h ?_
      show exp ≤ now + s.accessTokenExpiry
      unfold Time Duration at *
      omega
  | CleanupExpiredSessions =>
    simp only [Step.run, CleanupExpiredSessions, authServiceAt, storeRepository, execute]
    cases fault .DeleteExpiredSessions with
    | some e => exact h
    | none =>
      cases fault .DeleteExpiredBlacklistedTokens with
      | some e => exact blacklistedUntil_congr _ _ _ _ h rfl
      | none =>
        exact blacklistedUntil_sweep
          { sessions := st.sessions.filter (fun x => !decide (x.ExpiresAt.Time < clock)),
            blacklist := st.blacklist } jti exp clock _ (blacklistedUntil_congr _ _ _ _ h rfl)
          hclock

/-- A history of such calls keeps a jti blacklisted until `exp`. -/
theorem blacklistedUntil_runSteps (s : authService Store) (steps : List Step) (st : Store)
    (jti : String) (exp t : Time)
    (hus : ∀ e p w, (s.userService.AuthenticateUser e p w).2 = w)
    (hja : ∀ a b w, (s.jwtService.GenerateAccessToken a b w).2 = w)
    (hjr : ∀ w, (s.jwtService.GenerateRefreshToken w).2 = w)
    (hle : exp ≤ t + s.accessTokenExpiry)
    (hlater : ∀ step ∈ steps, step.clock < exp ∧ ∀ now ∈ step.call.writeTime, t ≤ now)
    (h : blacklistedUntil st jti exp) : blacklistedUntil (runSteps s steps st) jti exp := by
  induction steps generalizing st with
  | nil => exact h
  | cons step steps ih =>
    have h1 := hlater step (List.mem_cons_self _ _)
    exact ih (step.run s st) (fun x hx => hlater x (List.mem_cons_of_mem _ hx))
      (blacklistedUntil_step s step st jti exp t hus hja hjr hle h1.1 h1.2 h)

/-- What `Logout` with a jti does when the record store fails neither the
delete nor the write. -/
theorem Logout_eq (s : authService Store) (clock : Time) (id : UUID)
    (fault : StoreOp → Option Error) (now : Time) (refreshToken accessTokenJTI : String)
    (userID : UUID) (st : Store)
    (hrepo : s.sessionRepository = storeRepository clock id fault)
    (hdelete : fault .DeleteSession = none) (hwrite : fault .BlacklistToken = none)
    (hjti : accessTokenJTI ≠ "") :
    Logout s now refreshToken accessTokenJTI userID st =
      (none,
        { sessions := st.sessions.filter (fun x => x.RefreshTokenHash != refreshToken),
          blacklist :=
            { TokenJti := accessTokenJTI, UserID := userID,
              Reason := { String := "user logout", Valid := true },
              ExpiresAt := { Time := now + s.accessTokenExpiry, Valid := true } } ::
            st.blacklist.filter (fun x => x.TokenJti != accessTokenJTI) }) := by
  unfold Logout
  rw [hrepo]
  simp [storeRepository, execute, hdelete, hwrite, hjti, Add]

/-- What `RevokeToken` does when the record store does not fail the write. -/
theorem RevokeToken_eq (s : authService Store) (clock : Time) (id : UUID)
    (fault : StoreOp → Option Error) (now : Time) (tokenJTI : String) (userID : UUID)
    (reason : String) (st : Store)
    (hrepo : s.sessionRepository = storeRepository clock id fault)
    (hwrite : fault .BlacklistToken = none) :
    RevokeToken s now tokenJTI userID reason st =
      (none,
        { sessions := st.sessions,
          blacklist :=
            { TokenJti := tokenJTI, UserID := userID,
              Reason := { String := reason, Valid := reason != "" },
              ExpiresAt := { Time := now + s.accessTokenExpiry, Valid := true } } ::
            st.blacklist.filter (fun x => x.TokenJti != tokenJTI) }) := by
  unfold RevokeToken
  rw [hrepo]
  simp [storeRepository, execute, hwrite, Add]

/-- Claim C16: when the token codec and the auth service are configured with
the same access TTL and the clock does not go back, a `Logout` (with a jti) or
a `RevokeToken` at time `t`, against a record store that does not fail the
statements it issues, returns no error and stores under the jti a Blacklist
Entry with `expires_at` = `t` + access TTL, which is not earlier than the
`expires_at` of any access token issued at or before `t`; and after every
history of later calls of the six operations of the auth service, each answered
by a store whose clock is still before the token's `expires_at`, the blacklist
still holds under the jti an entry that expires no earlier than the token. The
user service and the token service are taken not to write to the session
store. -/
theorem blacklist_entry_outlives_token (s : authService Store) (js : jwtService)
    (clock : Time) (id : UUID) (fault : StoreOp → Option Error) (t0 t exp : Time)
    (jti0 : String) (userID0 email : List Nat) (refreshToken jti reason : String)
    (userID : UUID) (st : Store) (steps : List Step)
    (hrepo : s.sessionRepository = storeRepository clock id fault)
    (hdelete : fault .DeleteSession = none) (hwrite : fault .BlacklistToken = none)
    (hus : ∀ e p w, (s.userService.AuthenticateUser e p w).2 = w)
    (hja : ∀ a b w, (s.jwtService.GenerateAccessToken a b w).2 = w)
    (hjr : ∀ w, (s.jwtService.GenerateRefreshToken w).2 = w)
    (hsame : js.accessTokenExpiry = s.accessTokenExpiry)
    (hclock : t0 ≤ t)
    (hexp : (issuedClaims js jti0 t0 userID0 email).ExpiresAt = some exp)
    (hlater : ∀ step ∈ steps, step.clock < exp ∧ ∀ now ∈ step.call.writeTime, t ≤ now) :
    exp ≤ t + s.accessTokenExpiry ∧
    (jti ≠ "" →
      (Logout s t refreshToken jti userID st).1 = none ∧
      (∃ entry,
        (Logout s t refreshToken jti userID st).2.blacklist.find?
          (fun e => e.TokenJti == jti) = some entry ∧
        entry.ExpiresAt.Time = t + s.accessTokenExpiry) ∧
      blacklistedUntil (runSteps s steps (Logout s t refreshToken jti userID st).2) jti exp) ∧
    ((RevokeToken s t jti userID reason st).1 = none ∧
      (∃ entry,
        (RevokeToken s t jti userID reason st).2.blacklist.find?
          (fun e => e.TokenJti == jti) = some entry ∧
        entry.ExpiresAt.Time = t + s.accessTokenExpiry) ∧
      blacklistedUntil (runSteps s steps (RevokeToken s t jti userID reason st).2) jti exp) := by
  have hle : exp ≤ t + s.accessTokenExpiry := by
    have h0 : NewNumericDate (Add t0 js.accessTokenExpiry) = exp := Option.some.inj hexp
    have h1 := NewNumericDate_le (Add t0 js.accessTokenExpiry)
    rw [h0, hsame] at h1
    unfold Add at h1
    unfold Time Duration at *
    omega
  have hf : ∀ (e : BlacklistEntry) (l : List BlacklistEntry), e.TokenJti = jti →
      (e :: l).find? (fun x => x.TokenJti == jti) = some e := by
    intro e l h
    simp [List.find?, h]
  refine ⟨hle, fun hjti => ?_, ?_⟩
  · rw [Logout_eq s clock id fault t refreshToken jti userID st hrepo hdelete hwrite hjti]
    exact ⟨rfl, ⟨_, hf _ _ rfl, rfl⟩,
      blacklistedUntil_runSteps s steps _ jti exp t hus hja hjr hle hlater
        ⟨_, hf _ _ rfl, hle⟩⟩
  · rw [RevokeToken_eq s clock id fault t jti userID reason st hrepo hwrite]
    exact ⟨rfl, ⟨_, hf _ _ rfl, rfl⟩,
      blacklistedUntil_runSteps s steps _ jti exp t hus hja hjr hle hlater
        ⟨_, hf _ _ rfl, hle⟩⟩

/-- The result of C16 for a token issued at 0 s and revoked at 100 s, both
under a TTL of fifteen minutes: the token expires at 900 s and the entry at
1000 s; `Logout` and `RevokeToken` return no error, and after the history of
`sampleSteps`, with sweeps at 500 s and at 899 s, the entry is still in the
blacklist. -/
theorem blacklist_entry_outlives_token_witness :
    (900 * Second : Time) ≤ 100 * Second + (sampleAuthService 0 noFault).accessTokenExpiry ∧
    ((Logout (sampleAuthService 0 noFault) (100 * Second) "refresh-1" "jti-1" (sampleUUID 1)
        { sessions := [sampleSession], blacklist := [] }).1 = none ∧
      blacklistedUntil (runSteps (sampleAuthService 0 noFault) sampleSteps
        (Logout (sampleAuthService 0 noFault) (100 * Second) "refresh-1" "jti-1" (sampleUUID 1)
          { sessions := [sampleSession], blacklist := [] }).2) "jti-1" (900 * Second)) ∧
    ((RevokeToken (sampleAuthService 0 noFault) (100 * Second) "jti-1" (sampleUUID 1) "abuse"
        { sessions := [sampleSession], blacklist := [] }).1 = none ∧
      blacklistedUntil (runSteps (sampleAuthService 0 noFault) sampleSteps
        (RevokeToken (sampleAuthService 0 noFault) (100 * Second) "jti-1" (sampleUUID 1) "abuse"
          { sessions := [sampleSession], blacklist := [] }).2) "jti-1" (900 * Second)) ∧
    (runSteps (sampleAuthService 0 noFault) sampleSteps
        (RevokeToken (sampleAuthService 0 noFault) (100 * Second) "jti-1" (sampleUUID 1) "abuse"
          { sessions := [sampleSession], blacklist := [] }).2).blacklist.map
        (fun e => (e.TokenJti, e.ExpiresAt.Time)) =
      [("jti-2", 1600 * Second), ("jti-1", 1000 * Second)] := by
  have h := blacklist_entry_outlives_token (sampleAuthService 0 noFault)
    (NewJWTService [107] (15 * Minute) (60 * Minute)) 0 (sampleUUID 9) noFault 0 (100 * Second)
    (900 * Second) "jti-1" (utf8Bytes "user-1") (utf8Bytes "a@b.c") "refresh-1" "jti-1" "abuse"
    (sampleUUID 1) { sessions := [sampleSession], blacklist := [] } sampleSteps rfl rfl rfl
    (fun e p w => by
      simp only [sampleAuthService, NewAuthService, sampleUserService]
      split <;> rfl)
    (fun _ _ _ => rfl) (fun _ => rfl) rfl (by decide) (by decide) (by decide)
  have hl := h.2.1 (by decide)
  exact ⟨h.1, ⟨hl.1, hl.2.2⟩, ⟨h.2.2.1, h.2.2.2.2⟩, by decide⟩

end SplitPlus
